import Mathlib

/-!
# go-etesync terminal browser: the `gui` package

A shallow embedding of `src/gui/gui.go` (the journal list, the entry list and
the keyboard handler of the entry table) together with theorems about what the
views contain after each operation.

Conventions of the embedding

* Mutable Go objects (`tview.Table`, the focus held by `tview.Application`) are
  explicit state, threaded through every operation.
* A Go function that can `return err`, call `log.Fatal` or `panic` yields an
  `Outcome` next to the state it leaves behind.
* Packages that are imported by `gui.go` but are not part of the two source
  files (`api`, `crypto`, `ical`, `godate`) are collected in `Env`; their calls
  are recorded in the ghost field `GUI.calls` so that "no fetch or decode took
  place" is a statement about the state.
-/

namespace Etesync

/-! ## Values exchanged with the collaborators -/

/-- Go `error` values are opaque to `gui.go`; only their identity matters. -/
abbrev Error := String

/-- The master key, a Go `[]byte`. -/
abbrev Bytes := List Nat

/-- An instant (`time.Time`), as an offset from the zero value `time.Time{}`. -/
abbrev Time := Int

/-- The zero value `time.Time{}`. -/
def Time.zero : Time := 0

/-- A journal as delivered by `api.Client`: the fields read in the sources plus
the encrypted metadata. -/
structure Journal where
  UID : String
  Owner : String
  ReadOnly : Bool
  Content : String
deriving DecidableEq

/-- A journal entry as delivered by `api.Client`. -/
structure Entry where
  UID : String
  Content : String
deriving DecidableEq

/-- `api.JournalType` is a string type (`string(jc.Type)` in `onJournalSelect`). -/
abbrev JournalType := String

/-- Decoded journal metadata (`api.JournalContent`); `Typ` is the Go field
`Type`. -/
structure JournalContent where
  DisplayName : String
  Typ : JournalType
deriving DecidableEq

/-- Decoded entry payload (`api.EntryContent`). -/
structure EntryContent where
  Action : String
  Content : String
deriving DecidableEq

/-- The decryption context returned by `crypto.New(uid, key)`: scoped to the
journal identifier and the master key. -/
structure Cipher where
  scope : String
  key : Bytes
deriving DecidableEq

/-- `crypto.New([]byte(uid), key)`. -/
def cryptoNew (uid : String) (key : Bytes) : Cipher := ⟨uid, key⟩

/-- An `ical.Node`: a name, a value, parameters (a Go `map[string]string`, here
a list of pairs) and child nodes; properties are children that carry a value. -/
inductive Node where
  | mk (Name : String) (Value : String) (Parameters : List (String × String))
      (Children : List Node)

/-- Field `Name` of an `ical.Node`. -/
def Node.Name : Node → String
  | .mk n _ _ _ => n

/-- Field `Value` of an `ical.Node`. -/
def Node.Value : Node → String
  | .mk _ v _ _ => v

/-- Field `Parameters` of an `ical.Node`. -/
def Node.Parameters : Node → List (String × String)
  | .mk _ _ ps _ => ps

/-- Field `Children` of an `ical.Node`. -/
def Node.Children : Node → List Node
  | .mk _ _ _ cs => cs

/-- `ical.Node.ChildByName`: the first child with the given name, `nil` if
there is none. -/
def Node.ChildByName (n : Node) (name : String) : Option Node :=
  n.Children.find? (fun c => c.Name == name)

/-- `ical.Node.PropString`: the value of the first child with the given name,
the default if there is none. -/
def Node.PropString (n : Node) (name : String) (defaultValue : String) : String :=
  match n.ChildByName name with
  | some c => c.Value
  | none => defaultValue

/-- Collaborator calls that reach the remote service or decode a payload. -/
inductive Call where
  | Journals
  | JournalEntries (uid : String)
  | JournalGetContent (uid : String)
  | EntryGetContent (uid : String)
  | ParseCalendar (text : String)
deriving DecidableEq

/-- Everything `gui.go` imports from outside the two source files.

* `Journals`, `JournalEntries`: the two methods of `api.Client` used by the GUI;
* `JournalGetContent`, `EntryGetContent`: `(*api.Journal).GetContent` and
  `(*api.JournalEntry).GetContent`;
* `ParseCalendar`: `ical.ParseCalendar`;
* `parseTime`: how `ical.Node.PropDate` reads a date property that is present
  (its value, in the zone named by its `TZID` parameter if it has one): the
  time, or the value passed to `panic` when the value does not parse or the
  zone is unknown;
* `DifferenceFromNowForHumans`: `godate.Create(t).DifferenceFromNowForHumans()`;
* `JournalCalendar`, `JournalAddressBook`, `JournalTasks`: the three
  `api.JournalType` constants. -/
structure Env where
  Journals : Except Error (List Journal)
  JournalEntries : String → Except Error (List Entry)
  JournalGetContent : Journal → Cipher → Except Error JournalContent
  EntryGetContent : Entry → Cipher → Except Error EntryContent
  ParseCalendar : String → Except Error Node
  parseTime : Node → Except String Time
  DifferenceFromNowForHumans : Time → String
  JournalCalendar : JournalType
  JournalAddressBook : JournalType
  JournalTasks : JournalType

/-- `ical.Node.PropDate`: the default if no child has the given name, otherwise
the parsed value of the first such child; `.error v` stands for `panic(v)`,
which is how `PropDate` ends when that value cannot be parsed. -/
def Node.PropDate (env : Env) (n : Node) (name : String) (defaultValue : Time) :
    Except String Time :=
  match n.ChildByName name with
  | some c => env.parseTime c
  | none => .ok defaultValue

/-! ## The widgets -/

/-- Text colours used by `gui.go`: the default of `tview.NewTableCell` and
`tcell.ColorGray`. -/
inductive Color where
  | primaryText
  | gray
deriving DecidableEq

/-- A `tview.TableCell`, restricted to the attributes `gui.go` sets. -/
structure TableCell where
  Text : String
  NotSelectable : Bool
  Color : Etesync.Color
deriving DecidableEq

/-- `tview.NewTableCell(text)`. -/
def NewTableCell (text : String) : TableCell := ⟨text, false, .primaryText⟩

/-- `(*tview.TableCell).SetSelectable`. -/
def TableCell.SetSelectable (c : TableCell) (selectable : Bool) : TableCell :=
  { c with NotSelectable := !selectable }

/-- `(*tview.TableCell).SetTextColor`. -/
def TableCell.SetTextColor (c : TableCell) (color : Etesync.Color) : TableCell :=
  { c with Color := color }

/-- A `tview.Table`: the cell at each (row, column) position, if any, and the
attributes `gui.go` sets. -/
structure Table where
  cells : Nat → Nat → Option TableCell
  title : String
  border : Bool
  rowsSelectable : Bool
  columnsSelectable : Bool
  fixedRows : Nat
  fixedColumns : Nat
  selectedRow : Nat
  selectedColumn : Nat
  rowOffset : Nat
  columnOffset : Nat

/-- `tview.NewTable()`. -/
def NewTable : Table :=
  { cells := fun _ _ => none, title := "", border := false,
    rowsSelectable := false, columnsSelectable := false,
    fixedRows := 0, fixedColumns := 0,
    selectedRow := 0, selectedColumn := 0, rowOffset := 0, columnOffset := 0 }

/-- `(*tview.Table).SetSelectable`. -/
def Table.SetSelectable (t : Table) (rows columns : Bool) : Table :=
  { t with rowsSelectable := rows, columnsSelectable := columns }

/-- `(*tview.Table).SetFixed`. -/
def Table.SetFixed (t : Table) (rows columns : Nat) : Table :=
  { t with fixedRows := rows, fixedColumns := columns }

/-- `(*tview.Table).SetBorder`. -/
def Table.SetBorder (t : Table) (show_ : Bool) : Table :=
  { t with border := show_ }

/-- `(*tview.Table).SetTitle`. -/
def Table.SetTitle (t : Table) (title : String) : Table :=
  { t with title := title }

/-- `(*tview.Table).Clear`: removes all table data. -/
def Table.Clear (t : Table) : Table :=
  { t with cells := fun _ _ => none }

/-- `(*tview.Table).SetCell`. -/
def Table.SetCell (t : Table) (row column : Nat) (cell : TableCell) : Table :=
  { t with cells := fun r c => if r = row ∧ c = column then some cell else t.cells r c }

/-- `(*tview.Table).SetCellSimple`. -/
def Table.SetCellSimple (t : Table) (row column : Nat) (text : String) : Table :=
  t.SetCell row column (NewTableCell text)

/-- `(*tview.Table).Select`. -/
def Table.Select (t : Table) (row column : Nat) : Table :=
  { t with selectedRow := row, selectedColumn := column }

/-- `(*tview.Table).ScrollToBeginning`. -/
def Table.ScrollToBeginning (t : Table) : Table :=
  { t with rowOffset := 0, columnOffset := 0 }

/-- The primitive that holds the input focus of the `tview.Application`. -/
inductive Focus where
  | root
  | journals
  | entries
deriving DecidableEq

/-- The `GUI` struct: the application focus, the two tables and the key. The
API client lives in `Env`; `calls` is the ghost record of collaborator calls
made so far. -/
structure GUI where
  focus : Focus
  entries : Table
  journals : Table
  key : Bytes
  calls : List Call

/-- Records a collaborator call. -/
def GUI.record (gui : GUI) (c : Call) : GUI :=
  { gui with calls := gui.calls ++ [c] }

/-- `gui.app.SetFocus(p)`. -/
def GUI.SetFocus (gui : GUI) (p : Focus) : GUI :=
  { gui with focus := p }

/-- How a Go call ends: `return nil`, `return err`, `log.Fatal(err)` (the
process exits) or `panic(v)`. -/
inductive Outcome where
  | ok
  | error (err : Error)
  | fatal (err : Error)
  | panic (v : String)
deriving DecidableEq

/-- A `tcell.Key` (an `int16` key code). -/
abbrev Key := Int

/-- The constant `tcell.KeyLeft`. -/
def KeyLeft : Key := 260

/-- The constant `tcell.KeyTAB`. -/
def KeyTAB : Key := 9

/-- A `tcell.EventKey`: key code, rune and modifier mask. -/
structure EventKey where
  key : Key
  ch : Char
  mod : Nat
deriving DecidableEq

/-- `(*tcell.EventKey).Key`. -/
def EventKey.Key (e : EventKey) : Key := e.key

/-! ## `newEntries` -/

/-- The table built by `newEntries` (lines 35-36). -/
def newEntries : Table :=
  ((NewTable.SetSelectable true false).SetFixed 1 1).SetBorder true

/-- The input capture installed by `newEntries` (lines 38-45): on left-arrow or
tab the focus goes to the journal table; the event is returned as it came. -/
def newEntries.InputCapture (gui : GUI) (e : EventKey) : GUI × EventKey :=
  let gui := if e.Key = KeyLeft ∨ e.Key = KeyTAB then gui.SetFocus .journals else gui
  (gui, e)

/-! ## `newJournals` -/

/-- The `switch content.Type` of `newJournals` (lines 68-77); `icon` starts as
the empty string and no case is a default. -/
def newJournals.icon (env : Env) (ty : JournalType) : String :=
  if ty = env.JournalCalendar then "📅"
  else if ty = env.JournalAddressBook then "🙎"
  else if ty = env.JournalTasks then "🗒"
  else ""

/-- The `for i, j := range js` loop of `newJournals` (lines 60-79), from index
`i` on; `uids` is the slice filled in at line 66. -/
def newJournals.loop (env : Env) :
    Nat → List Journal → Table → List (Option Journal) → GUI →
      Except Error (Table × List (Option Journal)) × GUI
  | _, [], t, uids, gui => (.ok (t, uids), gui)
  | i, j :: rest, t, uids, gui =>
    let cipher := cryptoNew j.UID gui.key
    let gui := gui.record (.JournalGetContent j.UID)
    match env.JournalGetContent j cipher with
    | .error err => (.error err, gui)
    | .ok content =>
      let uids := uids.set i (some j)
      let icon := newJournals.icon env content.Typ
      let t := t.SetCell i 0 (NewTableCell (icon ++ " " ++ content.DisplayName))
      newJournals.loop env (i + 1) rest t uids gui

/-- `(*GUI).newJournals` (lines 50-90): the journal table and the journals
behind its rows, or the first error. -/
def newJournals (env : Env) (gui : GUI) :
    Except Error (Table × List (Option Journal)) × GUI :=
  let gui := gui.record .Journals
  match env.Journals with
  | .error err => (.error err, gui)
  | .ok js =>
    let t := ((NewTable.SetSelectable true false).SetTitle "Journals").SetBorder true
    let uids : List (Option Journal) := List.replicate js.length none
    newJournals.loop env 0 js t uids gui

/-! ## `setTableHeaders` -/

/-- The `for i, s := range headers` loop of `setTableHeaders` (lines 93-98),
from index `i` on. -/
def setTableHeaders.loop : Nat → List String → Table → Table
  | _, [], t => t
  | i, s :: rest, t =>
    let cell := ((NewTableCell s).SetSelectable false).SetTextColor .gray
    setTableHeaders.loop (i + 1) rest (t.SetCell 0 i cell)

/-- `setTableHeaders(t, headers...)` (lines 92-99). -/
def setTableHeaders (t : Table) (headers : List String) : Table :=
  setTableHeaders.loop 0 headers t

/-! ## `onJournalSelect` -/

/-- The `switch content.Action` of `onJournalSelect` (lines 130-140). -/
def onJournalSelect.icon (action : String) : String :=
  if action = "ADD" then "✔"
  else if action = "DELETE" then "✖"
  else if action = "CHANGE" then "↪"
  else action

/-- The `switch node.Name` of `onJournalSelect` (lines 141-171) at loop index
`i`: the value passed to `panic` if the switch panics (in the default case, or
inside `PropDate` at line 165), `none` otherwise, and the entry table as the
switch leaves it. -/
def onJournalSelect.render (env : Env) (i : Nat) (icon : String) (node : Node)
    (t : Table) : Option String × Table :=
  if node.Name = "VCARD" then
    let t := if i = 0 then setTableHeaders t ["", "Name", "Phone"] else t
    let t := t.SetCellSimple (i + 1) 0 icon
    let t := t.SetCellSimple (i + 1) 1 (node.PropString "FN" "<N/A>")
    let t := t.SetCellSimple (i + 1) 2 (node.PropString "TEL" "")
    (none, t)
  else if node.Name = "VCALENDAR" ∨ node.Name = "VTODO" then
    let t := if i = 0 then setTableHeaders t ["", "Summary", "Date"] else t
    let child :=
      match node.ChildByName "VTODO" with
      | some c => some c
      | none => node.ChildByName "VEVENT"
    match child with
    | some child =>
      let t := t.SetCellSimple (i + 1) 0 icon
      let t := t.SetCellSimple (i + 1) 1 (child.PropString "SUMMARY" "")
      match child.PropDate env "DTSTAMP" Time.zero with
      | .error v => (some v, t)
      | .ok when =>
        let diff := env.DifferenceFromNowForHumans when
        (none, t.SetCellSimple (i + 1) 2 diff)
    | none => (none, t)
  else
    (some node.Name, t)

/-- One pass through the body of the `for` loop of `onJournalSelect` (lines
117-174) for the entry `e` at loop index `i`: `none` when the loop goes on,
otherwise how the call ends. -/
def onJournalSelect.body (env : Env) (cipher : Cipher) (i : Nat) (e : Entry)
    (gui : GUI) : Option Outcome × GUI :=
  let gui := gui.record (.EntryGetContent e.UID)
  match env.EntryGetContent e cipher with
  | .error err => (some (.error err), gui)
  | .ok content =>
    let gui := gui.record (.ParseCalendar content.Content)
    match env.ParseCalendar content.Content with
    | .error err => (some (.error err), gui)
    | .ok node =>
      let icon := onJournalSelect.icon content.Action
      match onJournalSelect.render env i icon node gui.entries with
      | (some v, t) => (some (.panic v), { gui with entries := t })
      | (none, t) =>
        let t := (t.Select 1 0).ScrollToBeginning
        (none, { gui with entries := t })

/-- The `for i := 0; i < len(es); i++` loop of `onJournalSelect` (lines
116-175): `n` iterations starting at index `i`, each one reading
`es[len(es)-i-1]` (an index outside the slice is a run-time panic). -/
def onJournalSelect.loop (env : Env) (cipher : Cipher) (es : List Entry) :
    Nat → Nat → GUI → Outcome × GUI
  | _, 0, gui => (.ok, gui)
  | i, n + 1, gui =>
    match es[es.length - i - 1]? with
    | none => (.panic "index out of range", gui)
    | some e =>
      match onJournalSelect.body env cipher i e gui with
      | (some out, gui) => (out, gui)
      | (none, gui) => onJournalSelect.loop env cipher es (i + 1) n gui

/-- `(*GUI).onJournalSelect` (lines 101-177). -/
def onJournalSelect (env : Env) (gui : GUI) (j : Journal) : Outcome × GUI :=
  let gui := gui.record (.JournalEntries j.UID)
  match env.JournalEntries j.UID with
  | .error err => (.error err, gui)
  | .ok es =>
    let cipher := cryptoNew j.UID gui.key
    let gui := gui.record (.JournalGetContent j.UID)
    match env.JournalGetContent j cipher with
    | .error err => (.fatal err, gui)
    | .ok jc =>
      let gui := { gui with entries := gui.entries.SetTitle jc.Typ }
      let gui := gui.SetFocus .entries
      let gui := { gui with entries := gui.entries.Clear }
      onJournalSelect.loop env cipher es 0 es.length gui

/-- The selection callback installed by `newJournals` (lines 81-87): populate
the entry table from the journal behind the row; any error is fatal. -/
def newJournals.SelectedFunc (env : Env) (uids : List (Option Journal)) (gui : GUI)
    (row : Nat) : Outcome × GUI :=
  match uids[row]? with
  | some (some j) =>
    match onJournalSelect env gui j with
    | (.error err, gui) => (.fatal err, gui)
    | r => r
  | some none => (.panic "nil pointer dereference", gui)
  | none => (.panic "index out of range", gui)

/-- The loop body run over entries listed in processing order, the first one at
loop index `i`; `onJournalSelect.loop` is this pass over the reversed slice
(`loop_eq_pass`). -/
def onJournalSelect.pass (env : Env) (cipher : Cipher) :
    Nat → List Entry → GUI → Outcome × GUI
  | _, [], gui => (.ok, gui)
  | i, e :: rest, gui =>
    match onJournalSelect.body env cipher i e gui with
    | (some out, gui) => (out, gui)
    | (none, gui) => onJournalSelect.pass env cipher (i + 1) rest gui

/-! ## The specification's description of a row -/

namespace Spec

/-- The action icon in the words of the specification (§4.3 step 3b): Add is
the check mark, Delete the cross, Change the reorder arrow, any other string is
shown verbatim. -/
def actionIcon (action : String) : String :=
  match action with
  | "ADD" => "✔"
  | "DELETE" => "✖"
  | "CHANGE" => "↪"
  | other => other

/-- The child a calendar row is rendered from (§4.3 step 3c): the child named
`VTODO`, else the child named `VEVENT`. -/
def calendarChild (node : Node) : Option Node :=
  match node.ChildByName "VTODO" with
  | some c => some c
  | none => node.ChildByName "VEVENT"

/-- A node has a renderable shape (§4.3 step 3c): it is a `VCARD`, or a
`VCALENDAR` or `VTODO` with a child named `VTODO` or `VEVENT`. -/
def renderable (node : Node) : Prop :=
  node.Name = "VCARD" ∨
    ((node.Name = "VCALENDAR" ∨ node.Name = "VTODO") ∧ (calendarChild node).isSome)

/-- The time stamp of a node can be read: the child a calendar row is rendered
from, if there is one, has no `DTSTAMP` or one that `PropDate` parses. -/
def stampReadable (env : Env) (node : Node) : Prop :=
  ∀ child, calendarChild node = some child →
    ∃ w, child.PropDate env "DTSTAMP" Time.zero = .ok w

/-- The three columns of the row of a decoded entry in the words of the
specification (§4.3 step 3c), `none` when the entry has no renderable shape or
its time stamp cannot be read. -/
def entryRow (env : Env) (content : EntryContent) (node : Node) :
    Option (String × String × String) :=
  if node.Name = "VCARD" then
    some (actionIcon content.Action, node.PropString "FN" "<N/A>", node.PropString "TEL" "")
  else if node.Name = "VCALENDAR" ∨ node.Name = "VTODO" then
    match calendarChild node with
    | some child =>
      match child.PropDate env "DTSTAMP" Time.zero with
      | .ok w =>
        some (actionIcon content.Action, child.PropString "SUMMARY" "",
          env.DifferenceFromNowForHumans w)
      | .error _ => none
    | none => none
  else none

/-- The header texts of the entry table for a node (§4.3 step 3d). -/
def headers (node : Node) : String × String × String :=
  if node.Name = "VCARD" then ("", "Name", "Phone") else ("", "Summary", "Date")

end Spec

/-- The cell `setTableHeaders` writes for a header text: not selectable, gray. -/
def headerCell (s : String) : TableCell := ⟨s, true, .gray⟩

/-! ## Auxiliary definitions for the statements -/

/-- The state in which `onJournalSelect` enters its loop (lines 112-115). -/
def onJournalSelect.start (gui : GUI) (j : Journal) (jc : JournalContent) : GUI :=
  let gui := (gui.record (.JournalEntries j.UID)).record (.JournalGetContent j.UID)
  let gui := { gui with entries := gui.entries.SetTitle jc.Typ }
  let gui := gui.SetFocus .entries
  { gui with entries := gui.entries.Clear }

/-- The value with which the `switch node.Name` of `onJournalSelect` panics for
a node, if it does: the node name in the default case, the value `PropDate`
panics with when the time stamp of the rendered child cannot be parsed. -/
def onJournalSelect.panicValue (env : Env) (node : Node) : Option String :=
  if node.Name = "VCARD" then none
  else if node.Name = "VCALENDAR" ∨ node.Name = "VTODO" then
    match Spec.calendarChild node with
    | some child =>
      match child.PropDate env "DTSTAMP" Time.zero with
      | .error v => some v
      | .ok _ => none
    | none => none
  else some node.Name

/-- Row `r` of a table shows the three texts as plain cells in columns 0 to 2. -/
abbrev Table.rowIs (t : Table) (r : Nat) (x y z : String) : Prop :=
  t.cells r 0 = some (NewTableCell x) ∧ t.cells r 1 = some (NewTableCell y) ∧
    t.cells r 2 = some (NewTableCell z)

/-- Row 0 of a table shows the three texts as header cells in columns 0 to 2. -/
abbrev Table.headerIs (t : Table) (x y z : String) : Prop :=
  t.cells 0 0 = some (headerCell x) ∧ t.cells 0 1 = some (headerCell y) ∧
    t.cells 0 2 = some (headerCell z)

/-! ## An example account -/

namespace Example

/-- A contact card with a name and a phone number. -/
def card : Node := .mk "VCARD" "" [] [.mk "FN" "Ann" [] [], .mk "TEL" "555" [] []]

/-- A calendar object holding one event with a summary and a time stamp. -/
def event : Node :=
  .mk "VCALENDAR" "" []
    [.mk "VEVENT" "" []
      [.mk "SUMMARY" "Standup" [] [], .mk "DTSTAMP" "20190101T120000Z" [] []]]

/-- A calendar object holding one event whose time stamp lacks the final `Z`
that `PropDate` expects. -/
def stale : Node :=
  .mk "VCALENDAR" "" []
    [.mk "VEVENT" "" []
      [.mk "SUMMARY" "Lunch" [] [], .mk "DTSTAMP" "20190101T120000" [] []]]

/-- A calendar object holding one task without a time stamp. -/
def todo : Node :=
  .mk "VCALENDAR" "" [] [.mk "VTODO" "" [] [.mk "SUMMARY" "Buy milk" [] []]]

/-- A calendar object with neither an event nor a task. -/
def bare : Node := .mk "VCALENDAR" "" [] []

/-- An object of a kind the entry list does not know. -/
def note : Node := .mk "VJOURNAL" "" [] []

/-- The journals of the example account. -/
def journals : List Journal :=
  [⟨"cal", "ann", false, "m1"⟩, ⟨"contacts", "ann", false, "m2"⟩, ⟨"tasks", "ann", true, "m3"⟩,
    ⟨"misc", "ann", false, "m4"⟩]

/-- The calendar journal. -/
def calendar : Journal := ⟨"cal", "ann", false, "m1"⟩

/-- The address book journal. -/
def contacts : Journal := ⟨"contacts", "ann", false, "m2"⟩

/-- The task journal; its second entry cannot be decrypted. -/
def tasks : Journal := ⟨"tasks", "ann", true, "m3"⟩

/-- A journal of unknown type whose oldest entry is of an unknown kind. -/
def misc : Journal := ⟨"misc", "ann", false, "m4"⟩

/-- An imported calendar whose newest entry has a time stamp that cannot be
parsed. -/
def imported : Journal := ⟨"imported", "ann", false, "m5"⟩

/-- A calendar whose newest entry has neither an event nor a task and whose
older entry cannot be decrypted. -/
def drafts : Journal := ⟨"drafts", "ann", false, "m6"⟩

/-- A journal whose newest entry has neither an event nor a task and whose
older entry is of an unknown kind. -/
def scraps : Journal := ⟨"scraps", "ann", false, "m7"⟩

/-- The entries of the address book, oldest first: a card is added, then
deleted. -/
def contactEntries : List Entry := [⟨"c1", "add"⟩, ⟨"c2", "del"⟩]

/-- The entries of the calendar, oldest first. -/
def calendarEntries : List Entry := [⟨"v1", "event"⟩, ⟨"v2", "bare"⟩, ⟨"v3", "todo"⟩]

/-- The entries of the task journal, oldest first. -/
def taskEntries : List Entry := [⟨"t1", "todo"⟩, ⟨"t2", "garbled"⟩, ⟨"t3", "todo"⟩]

/-- The entries of the journal of unknown type, oldest first. -/
def miscEntries : List Entry := [⟨"n1", "note"⟩, ⟨"n2", "add"⟩]

/-- The entries of the imported calendar, oldest first. -/
def importedEntries : List Entry := [⟨"i1", "event"⟩, ⟨"i2", "stale"⟩]

/-- The entries of the drafts calendar, oldest first. -/
def draftEntries : List Entry := [⟨"d1", "garbled"⟩, ⟨"d2", "bare"⟩]

/-- The entries of the scraps journal, oldest first. -/
def scrapEntries : List Entry := [⟨"s1", "note"⟩, ⟨"s2", "bare"⟩]

/-- The collaborators of the example account. -/
def env : Env where
  Journals := .ok journals
  JournalEntries := fun uid =>
    if uid = "contacts" then .ok contactEntries
    else if uid = "cal" then .ok calendarEntries
    else if uid = "tasks" then .ok taskEntries
    else if uid = "misc" then .ok miscEntries
    else if uid = "imported" then .ok importedEntries
    else if uid = "drafts" then .ok draftEntries
    else if uid = "scraps" then .ok scrapEntries
    else .error "not found"
  JournalGetContent := fun j _ =>
    if j.UID = "cal" then .ok ⟨"Work", "CALENDAR"⟩
    else if j.UID = "contacts" then .ok ⟨"Friends", "ADDRESS_BOOK"⟩
    else if j.UID = "tasks" then .ok ⟨"Chores", "TASKS"⟩
    else .ok ⟨"Misc", "NOTES"⟩
  EntryGetContent := fun e _ =>
    if e.Content = "add" then .ok ⟨"ADD", "card"⟩
    else if e.Content = "del" then .ok ⟨"DELETE", "card"⟩
    else if e.Content = "garbled" then .error "bad signature"
    else .ok ⟨"CHANGE", e.Content⟩
  ParseCalendar := fun s =>
    if s = "card" then .ok card
    else if s = "event" then .ok event
    else if s = "todo" then .ok todo
    else if s = "bare" then .ok bare
    else if s = "note" then .ok note
    else if s = "stale" then .ok stale
    else .error "parse error"
  parseTime := fun p =>
    if p.Value = "20190101T120000Z" then .ok 63681940800
    else .error "parsing time: cannot parse as 20060102T150405Z"
  DifferenceFromNowForHumans := fun t => if t = 0 then "2019 years ago" else "3 days ago"
  JournalCalendar := "CALENDAR"
  JournalAddressBook := "ADDRESS_BOOK"
  JournalTasks := "TASKS"

/-- The GUI right after `Start` has built the entry table. -/
def gui : GUI := ⟨.journals, newEntries, NewTable, [1, 2, 3], []⟩

/-- The GUI after the address book has been selected. -/
def afterContacts : GUI := (onJournalSelect env gui contacts).2

/-- The state in which the loop starts when the drafts calendar is selected. -/
def draftsStart : GUI := onJournalSelect.start gui drafts ⟨"Misc", "NOTES"⟩

/-- The state after the newest entry of the drafts calendar has been processed. -/
def draftsNewest : GUI :=
  (onJournalSelect.loop env (cryptoNew "drafts" [1, 2, 3]) draftEntries 0 1 draftsStart).2

/-- The state in which the loop starts when the scraps journal is selected. -/
def scrapsStart : GUI := onJournalSelect.start gui scraps ⟨"Misc", "NOTES"⟩

/-- The state after the newest entry of the scraps journal has been processed. -/
def scrapsNewest : GUI :=
  (onJournalSelect.loop env (cryptoNew "scraps" [1, 2, 3]) scrapEntries 0 1 scrapsStart).2

/-- The state in which the loop starts when the address book is selected. -/
def contactsStart : GUI := onJournalSelect.start gui contacts ⟨"Friends", "ADDRESS_BOOK"⟩

/-- The state in which the loop starts when the calendar is selected. -/
def calendarStart : GUI := onJournalSelect.start gui calendar ⟨"Work", "CALENDAR"⟩

end Example

/-! ## Table accessors -/

@[simp] theorem Table.cells_SetCell (t : Table) (row column : Nat) (cell : TableCell)
    (r c : Nat) :
    (t.SetCell row column cell).cells r c
      = if r = row ∧ c = column then some cell else t.cells r c := rfl

@[simp] theorem Table.cells_SetCellSimple (t : Table) (row column : Nat) (text : String)
    (r c : Nat) :
    (t.SetCellSimple row column text).cells r c
      = if r = row ∧ c = column then some (NewTableCell text) else t.cells r c := rfl

@[simp] theorem Table.cells_Select (t : Table) (row column : Nat) :
    (t.Select row column).cells = t.cells := rfl

@[simp] theorem Table.cells_ScrollToBeginning (t : Table) :
    t.ScrollToBeginning.cells = t.cells := rfl

@[simp] theorem Table.cells_SetTitle (t : Table) (s : String) :
    (t.SetTitle s).cells = t.cells := rfl

@[simp] theorem Table.cells_Clear (t : Table) (r c : Nat) :
    t.Clear.cells r c = none := rfl

theorem setTableHeaders_three (t : Table) (a b c : String) (r k : Nat) :
    (setTableHeaders t [a, b, c]).cells r k
      = if r = 0 then
          (if k = 0 then some (headerCell a) else if k = 1 then some (headerCell b)
            else if k = 2 then some (headerCell c) else t.cells r k)
        else t.cells r k := by
  simp only [setTableHeaders, setTableHeaders.loop, Table.cells_SetCell, NewTableCell,
    TableCell.SetSelectable, TableCell.SetTextColor, headerCell]
  by_cases hr : r = 0 <;> by_cases h0 : k = 0 <;> by_cases h1 : k = 1 <;>
    by_cases h2 : k = 2 <;> simp_all

/-! ## The action icon -/

theorem icon_eq_actionIcon (a : String) : onJournalSelect.icon a = Spec.actionIcon a := by
  unfold onJournalSelect.icon Spec.actionIcon
  split_ifs with h1 h2 h3
  · subst h1; rfl
  · subst h2; rfl
  · subst h3; rfl
  · split <;> simp_all

/-! ## The `switch node.Name` -/

theorem render_vcard (env : Env) (i : Nat) (icon : String) (node : Node) (t : Table)
    (h : node.Name = "VCARD") :
    onJournalSelect.render env i icon node t
      = (none, (((if i = 0 then setTableHeaders t ["", "Name", "Phone"] else t).SetCellSimple
          (i + 1) 0 icon).SetCellSimple (i + 1) 1 (node.PropString "FN" "<N/A>")).SetCellSimple
          (i + 1) 2 (node.PropString "TEL" "")) := by
  unfold onJournalSelect.render
  rw [if_pos h]

theorem render_calendar_child (env : Env) (i : Nat) (icon : String) (node child : Node)
    (t : Table) (w : Time) (h1 : node.Name ≠ "VCARD")
    (h2 : node.Name = "VCALENDAR" ∨ node.Name = "VTODO")
    (hc : Spec.calendarChild node = some child)
    (hw : child.PropDate env "DTSTAMP" Time.zero = .ok w) :
    onJournalSelect.render env i icon node t
      = (none, (((if i = 0 then setTableHeaders t ["", "Summary", "Date"] else t).SetCellSimple
          (i + 1) 0 icon).SetCellSimple (i + 1) 1 (child.PropString "SUMMARY" "")).SetCellSimple
          (i + 1) 2 (env.DifferenceFromNowForHumans w)) := by
  unfold onJournalSelect.render
  rw [if_neg h1, if_pos h2]
  unfold Spec.calendarChild at hc
  simp only [hc, hw]

theorem render_calendar_stamp (env : Env) (i : Nat) (icon : String) (node child : Node)
    (t : Table) (v : String) (h1 : node.Name ≠ "VCARD")
    (h2 : node.Name = "VCALENDAR" ∨ node.Name = "VTODO")
    (hc : Spec.calendarChild node = some child)
    (hw : child.PropDate env "DTSTAMP" Time.zero = .error v) :
    onJournalSelect.render env i icon node t
      = (some v, ((if i = 0 then setTableHeaders t ["", "Summary", "Date"] else t).SetCellSimple
          (i + 1) 0 icon).SetCellSimple (i + 1) 1 (child.PropString "SUMMARY" "")) := by
  unfold onJournalSelect.render
  rw [if_neg h1, if_pos h2]
  unfold Spec.calendarChild at hc
  simp only [hc, hw]

theorem render_calendar_nochild (env : Env) (i : Nat) (icon : String) (node : Node)
    (t : Table) (h1 : node.Name ≠ "VCARD") (h2 : node.Name = "VCALENDAR" ∨ node.Name = "VTODO")
    (hc : Spec.calendarChild node = none) :
    onJournalSelect.render env i icon node t
      = (none, if i = 0 then setTableHeaders t ["", "Summary", "Date"] else t) := by
  unfold onJournalSelect.render
  rw [if_neg h1, if_pos h2]
  unfold Spec.calendarChild at hc
  simp only [hc]

theorem render_other (env : Env) (i : Nat) (icon : String) (node : Node)
    (t : Table) (h1 : node.Name ≠ "VCARD")
    (h2 : ¬ (node.Name = "VCALENDAR" ∨ node.Name = "VTODO")) :
    onJournalSelect.render env i icon node t = (some node.Name, t) := by
  unfold onJournalSelect.render
  rw [if_neg h1, if_neg h2]

/-- The five ways through the switch. -/
theorem render_cases (env : Env) (node : Node) :
    node.Name = "VCARD" ∨
    (node.Name ≠ "VCARD" ∧ (node.Name = "VCALENDAR" ∨ node.Name = "VTODO") ∧
      ∃ child, Spec.calendarChild node = some child ∧
        ∃ w, child.PropDate env "DTSTAMP" Time.zero = .ok w) ∨
    (node.Name ≠ "VCARD" ∧ (node.Name = "VCALENDAR" ∨ node.Name = "VTODO") ∧
      ∃ child, Spec.calendarChild node = some child ∧
        ∃ v, child.PropDate env "DTSTAMP" Time.zero = .error v) ∨
    (node.Name ≠ "VCARD" ∧ (node.Name = "VCALENDAR" ∨ node.Name = "VTODO") ∧
      Spec.calendarChild node = none) ∨
    (node.Name ≠ "VCARD" ∧ ¬ (node.Name = "VCALENDAR" ∨ node.Name = "VTODO")) := by
  by_cases h1 : node.Name = "VCARD"
  · exact Or.inl h1
  · by_cases h2 : node.Name = "VCALENDAR" ∨ node.Name = "VTODO"
    · cases hc : Spec.calendarChild node with
      | none => exact Or.inr (Or.inr (Or.inr (Or.inl ⟨h1, h2, rfl⟩)))
      | some child =>
        cases hw : child.PropDate env "DTSTAMP" Time.zero with
        | ok w => exact Or.inr (Or.inl ⟨h1, h2, child, rfl, w, hw⟩)
        | error v => exact Or.inr (Or.inr (Or.inl ⟨h1, h2, child, rfl, v, hw⟩))
    · exact Or.inr (Or.inr (Or.inr (Or.inr ⟨h1, h2⟩)))

/-- Whether and with what the switch panics depends on the node alone. -/
theorem render_fst (env : Env) (i : Nat) (icon : String) (node : Node) (t : Table) :
    (onJournalSelect.render env i icon node t).1 = onJournalSelect.panicValue env node := by
  unfold onJournalSelect.panicValue
  rcases render_cases env node with h1 | ⟨h1, h2, child, hc, w, hw⟩ |
    ⟨h1, h2, child, hc, v, hw⟩ | ⟨h1, h2, hc⟩ | ⟨h1, h2⟩
  · rw [render_vcard env i icon node t h1, if_pos h1]
  · rw [render_calendar_child env i icon node child t w h1 h2 hc hw, if_neg h1, if_pos h2, hc]
    simp only [hw]
  · rw [render_calendar_stamp env i icon node child t v h1 h2 hc hw, if_neg h1, if_pos h2, hc]
    simp only [hw]
  · rw [render_calendar_nochild env i icon node t h1 h2 hc, if_neg h1, if_pos h2, hc]
  · rw [render_other env i icon node t h1 h2, if_neg h1, if_neg h2]

/-- The switch does not panic exactly when the node has one of the three
expected names and its time stamp can be read. -/
theorem panicValue_none_iff (env : Env) (node : Node) :
    onJournalSelect.panicValue env node = none ↔
      ((node.Name = "VCARD" ∨ node.Name = "VCALENDAR" ∨ node.Name = "VTODO") ∧
        (node.Name ≠ "VCARD" → Spec.stampReadable env node)) := by
  unfold onJournalSelect.panicValue Spec.stampReadable
  rcases render_cases env node with h1 | ⟨h1, h2, child, hc, w, hw⟩ |
    ⟨h1, h2, child, hc, v, hw⟩ | ⟨h1, h2, hc⟩ | ⟨h1, h2⟩
  · rw [if_pos h1]
    exact ⟨fun _ => ⟨Or.inl h1, fun h => absurd h1 h⟩, fun _ => rfl⟩
  · rw [if_neg h1, if_pos h2, hc]
    simp only [hw, true_iff]
    refine ⟨Or.inr h2, fun _ c hc' => ?_⟩
    cases hc'
    exact ⟨w, hw⟩
  · rw [if_neg h1, if_pos h2, hc]
    simp only [hw]
    constructor
    · intro h; cases h
    · rintro ⟨-, h⟩
      obtain ⟨w, hw'⟩ := h h1 child rfl
      rw [hw] at hw'
      cases hw'
  · rw [if_neg h1, if_pos h2, hc]
    simp only [true_iff]
    refine ⟨Or.inr h2, fun _ c hc' => ?_⟩
    cases hc'
  · rw [if_neg h1, if_neg h2]
    constructor
    · intro h; cases h
    · rintro ⟨h | h, -⟩
      · exact absurd h h1
      · exact absurd h h2

/-- Cells the switch leaves alone, however it ends: everything outside row
`i + 1` and, when `i = 0`, row 0; and every column from 3 on. -/
theorem render_frame (env : Env) (i : Nat) (icon : String) (node : Node) (t : Table)
    (r c : Nat) (h : (r ≠ i + 1 ∧ ¬ (r = 0 ∧ i = 0)) ∨ 3 ≤ c) :
    (onJournalSelect.render env i icon node t).2.cells r c = t.cells r c := by
  have hkey : ∀ a b d : String,
      (if i = 0 then setTableHeaders t [a, b, d] else t).cells r c = t.cells r c := by
    intro a b d
    by_cases hi : i = 0
    · rw [if_pos hi, setTableHeaders_three]
      rcases h with ⟨-, h⟩ | h
      · have : r ≠ 0 := fun hr => h ⟨hr, hi⟩
        rw [if_neg this]
      · have c0 : c ≠ 0 := by omega
        have c1 : c ≠ 1 := by omega
        have c2 : c ≠ 2 := by omega
        simp [c0, c1, c2]
    · rw [if_neg hi]
  have hne : ∀ k, k < 3 → ¬ (r = i + 1 ∧ c = k) := by
    intro k hk hrc
    rcases h with ⟨h, -⟩ | h
    · exact h hrc.1
    · omega
  rcases render_cases env node with h1 | ⟨h1, h2, child, hc, w, hw⟩ |
    ⟨h1, h2, child, hc, v, hw⟩ | ⟨h1, h2, hc⟩ | ⟨h1, h2⟩
  · rw [render_vcard env i icon node t h1]
    simp only [Table.cells_SetCellSimple, if_neg (hne 0 (by omega)), if_neg (hne 1 (by omega)),
      if_neg (hne 2 (by omega))]
    exact hkey _ _ _
  · rw [render_calendar_child env i icon node child t w h1 h2 hc hw]
    simp only [Table.cells_SetCellSimple, if_neg (hne 0 (by omega)), if_neg (hne 1 (by omega)),
      if_neg (hne 2 (by omega))]
    exact hkey _ _ _
  · rw [render_calendar_stamp env i icon node child t v h1 h2 hc hw]
    simp only [Table.cells_SetCellSimple, if_neg (hne 0 (by omega)), if_neg (hne 1 (by omega))]
    exact hkey _ _ _
  · rw [render_calendar_nochild env i icon node t h1 h2 hc]
    exact hkey _ _ _
  · rw [render_other env i icon node t h1 h2]

/-- The cells the switch leaves depend on the table it starts from only
through its cells. -/
theorem render_congr (env : Env) (i : Nat) (icon : String) (node : Node) (t s : Table)
    (h : t.cells = s.cells) :
    (onJournalSelect.render env i icon node t).2.cells
      = (onJournalSelect.render env i icon node s).2.cells := by
  have hkey : ∀ a b d : String, ∀ r c,
      (if i = 0 then setTableHeaders t [a, b, d] else t).cells r c
        = (if i = 0 then setTableHeaders s [a, b, d] else s).cells r c := by
    intro a b d r c
    by_cases hi : i = 0
    · rw [if_pos hi, if_pos hi, setTableHeaders_three, setTableHeaders_three, h]
    · rw [if_neg hi, if_neg hi, h]
  funext r c
  rcases render_cases env node with h1 | ⟨h1, h2, child, hc, w, hw⟩ |
    ⟨h1, h2, child, hc, v, hw⟩ | ⟨h1, h2, hc⟩ | ⟨h1, h2⟩
  · rw [render_vcard env i icon node t h1, render_vcard env i icon node s h1]
    simp only [Table.cells_SetCellSimple, hkey]
  · rw [render_calendar_child env i icon node child t w h1 h2 hc hw,
      render_calendar_child env i icon node child s w h1 h2 hc hw]
    simp only [Table.cells_SetCellSimple, hkey]
  · rw [render_calendar_stamp env i icon node child t v h1 h2 hc hw,
      render_calendar_stamp env i icon node child s v h1 h2 hc hw]
    simp only [Table.cells_SetCellSimple, hkey]
  · rw [render_calendar_nochild env i icon node t h1 h2 hc,
      render_calendar_nochild env i icon node s h1 h2 hc]
    exact hkey _ _ _ r c
  · rw [render_other env i icon node t h1 h2, render_other env i icon node s h1 h2, h]

/-- Column 0 of row `i + 1` after the switch, for a node of a renderable shape:
the icon, also when the switch panics inside `PropDate`. -/
theorem render_icon_cell (env : Env) (i : Nat) (icon : String) (node : Node) (t : Table)
    (h : Spec.renderable node) :
    (onJournalSelect.render env i icon node t).2.cells (i + 1) 0
      = some (NewTableCell icon) := by
  rcases render_cases env node with h1 | ⟨h1, h2, child, hc, w, hw⟩ |
    ⟨h1, h2, child, hc, v, hw⟩ | ⟨h1, h2, hc⟩ | ⟨h1, h2⟩
  · rw [render_vcard env i icon node t h1]; simp
  · rw [render_calendar_child env i icon node child t w h1 h2 hc hw]; simp
  · rw [render_calendar_stamp env i icon node child t v h1 h2 hc hw]; simp
  · rcases h with h | ⟨-, h⟩
    · exact absurd h h1
    · rw [hc] at h; cases h
  · rcases h with h | ⟨h, -⟩
    · exact absurd h h1
    · exact absurd h h2

/-- Cells written by a switch that does not panic: row `i + 1` holds the
specification's row in columns 0 to 2 when the entry has one, row 0 holds the
headers when `i = 0`, and every other cell is as before. -/
theorem render_cells (env : Env) (i : Nat) (content : EntryContent) (node : Node)
    (t t' : Table)
    (h : onJournalSelect.render env i (onJournalSelect.icon content.Action) node t
      = (none, t'))
    (r c : Nat) :
    t'.cells r c =
      if r = i + 1 then
        match Spec.entryRow env content node with
        | some (x, y, z) =>
          if c = 0 then some (NewTableCell x) else if c = 1 then some (NewTableCell y)
          else if c = 2 then some (NewTableCell z) else t.cells r c
        | none => t.cells r c
      else if r = 0 ∧ i = 0 then
        if c = 0 then some (headerCell (Spec.headers node).1)
        else if c = 1 then some (headerCell (Spec.headers node).2.1)
        else if c = 2 then some (headerCell (Spec.headers node).2.2)
        else t.cells r c
      else t.cells r c := by
  rw [icon_eq_actionIcon] at h
  rcases render_cases env node with h1 | ⟨h1, h2, child, hc, w, hw⟩ |
    ⟨h1, h2, child, hc, v, hw⟩ | ⟨h1, h2, hc⟩ | ⟨h1, h2⟩
  · rw [render_vcard env i _ node t h1] at h
    cases h
    have hrow : Spec.entryRow env content node = some (Spec.actionIcon content.Action,
        node.PropString "FN" "<N/A>", node.PropString "TEL" "") := by
      unfold Spec.entryRow; rw [if_pos h1]
    have hhdr : Spec.headers node = ("", "Name", "Phone") := by
      unfold Spec.headers; rw [if_pos h1]
    rw [hrow, hhdr]
    by_cases hr : r = i + 1
    · subst hr
      by_cases hi : i = 0 <;> by_cases h0 : c = 0 <;> by_cases h1 : c = 1 <;>
        by_cases h2 : c = 2 <;> simp_all [setTableHeaders_three]
    · by_cases hi : i = 0 <;> simp_all [setTableHeaders_three]
  · have hhdr : Spec.headers node = ("", "Summary", "Date") := by
      unfold Spec.headers; rw [if_neg h1]
    rw [render_calendar_child env i _ node child t w h1 h2 hc hw] at h
    cases h
    have hrow : Spec.entryRow env content node = some (Spec.actionIcon content.Action,
        child.PropString "SUMMARY" "", env.DifferenceFromNowForHumans w) := by
      unfold Spec.entryRow; rw [if_neg h1, if_pos h2, hc]; simp only [hw]
    rw [hrow, hhdr]
    by_cases hr : r = i + 1
    · subst hr
      by_cases hi : i = 0 <;> by_cases h0 : c = 0 <;> by_cases h1 : c = 1 <;>
        by_cases h2 : c = 2 <;> simp_all [setTableHeaders_three]
    · by_cases hi : i = 0 <;> simp_all [setTableHeaders_three]
  · rw [render_calendar_stamp env i _ node child t v h1 h2 hc hw] at h
    cases h
  · have hhdr : Spec.headers node = ("", "Summary", "Date") := by
      unfold Spec.headers; rw [if_neg h1]
    rw [render_calendar_nochild env i _ node t h1 h2 hc] at h
    cases h
    have hrow : Spec.entryRow env content node = none := by
      unfold Spec.entryRow; rw [if_neg h1, if_pos h2, hc]
    rw [hrow, hhdr]
    by_cases hr : r = i + 1
    · subst hr
      by_cases hi : i = 0 <;> simp [hi, setTableHeaders_three]
    · by_cases hi : i = 0 <;> simp_all [setTableHeaders_three]
  · rw [render_other env i _ node t h1 h2] at h
    cases h

/-! ## The loop body -/

@[simp] theorem GUI.entries_record (gui : GUI) (c : Call) : (gui.record c).entries = gui.entries :=
  rfl

@[simp] theorem GUI.key_record (gui : GUI) (c : Call) : (gui.record c).key = gui.key := rfl

theorem body_decode_error (env : Env) (cipher : Cipher) (i : Nat) (e : Entry) (gui : GUI)
    (err : Error) (h : env.EntryGetContent e cipher = .error err) :
    onJournalSelect.body env cipher i e gui
      = (some (.error err), gui.record (.EntryGetContent e.UID)) := by
  unfold onJournalSelect.body
  simp only [h]

theorem body_parse_error (env : Env) (cipher : Cipher) (i : Nat) (e : Entry) (gui : GUI)
    (content : EntryContent) (err : Error) (h : env.EntryGetContent e cipher = .ok content)
    (hp : env.ParseCalendar content.Content = .error err) :
    onJournalSelect.body env cipher i e gui
      = (some (.error err),
          (gui.record (.EntryGetContent e.UID)).record (.ParseCalendar content.Content)) := by
  unfold onJournalSelect.body
  simp only [h, hp]

/-- The body panics when the switch does, with the table as the switch left
it. -/
theorem body_render_panic (env : Env) (cipher : Cipher) (i : Nat) (e : Entry) (gui : GUI)
    (content : EntryContent) (node : Node) (v : String) (t : Table)
    (h : env.EntryGetContent e cipher = .ok content)
    (hp : env.ParseCalendar content.Content = .ok node)
    (hr : onJournalSelect.render env i (onJournalSelect.icon content.Action) node gui.entries
      = (some v, t)) :
    onJournalSelect.body env cipher i e gui
      = (some (.panic v),
          { (gui.record (.EntryGetContent e.UID)).record (.ParseCalendar content.Content) with
            entries := t }) := by
  unfold onJournalSelect.body
  simp only [h, hp, GUI.entries_record, hr]

theorem body_panic (env : Env) (cipher : Cipher) (i : Nat) (e : Entry) (gui : GUI)
    (content : EntryContent) (node : Node) (h : env.EntryGetContent e cipher = .ok content)
    (hp : env.ParseCalendar content.Content = .ok node)
    (h1 : node.Name ≠ "VCARD") (h2 : node.Name ≠ "VCALENDAR") (h3 : node.Name ≠ "VTODO") :
    onJournalSelect.body env cipher i e gui
      = (some (.panic node.Name),
          (gui.record (.EntryGetContent e.UID)).record (.ParseCalendar content.Content)) := by
  have h23 : ¬ (node.Name = "VCALENDAR" ∨ node.Name = "VTODO") := by
    rintro (h | h)
    · exact h2 h
    · exact h3 h
  rw [body_render_panic env cipher i e gui content node node.Name gui.entries h hp
    (render_other env i _ node _ h1 h23)]
  rfl

theorem body_continue (env : Env) (cipher : Cipher) (i : Nat) (e : Entry) (gui : GUI)
    (content : EntryContent) (node : Node) (t : Table)
    (h : env.EntryGetContent e cipher = .ok content)
    (hp : env.ParseCalendar content.Content = .ok node)
    (hr : onJournalSelect.render env i (onJournalSelect.icon content.Action) node gui.entries
      = (none, t)) :
    onJournalSelect.body env cipher i e gui
      = (none,
          { (gui.record (.EntryGetContent e.UID)).record (.ParseCalendar content.Content) with
            entries := (t.Select 1 0).ScrollToBeginning }) := by
  unfold onJournalSelect.body
  simp only [h, hp, GUI.entries_record, hr]

/-- The switch as a pair of its two components. -/
theorem render_pair (env : Env) (i : Nat) (icon : String) (node : Node) (t : Table) :
    onJournalSelect.render env i icon node t
      = (onJournalSelect.panicValue env node, (onJournalSelect.render env i icon node t).2) :=
  Prod.ext (render_fst env i icon node t) rfl

/-- When the body lets the loop go on, the entry was decoded and parsed and the
switch produced the new entry table. -/
theorem body_none (env : Env) (cipher : Cipher) (i : Nat) (e : Entry) (gui gui1 : GUI)
    (h : onJournalSelect.body env cipher i e gui = (none, gui1)) :
    ∃ content node t,
      env.EntryGetContent e cipher = .ok content ∧
      env.ParseCalendar content.Content = .ok node ∧
      onJournalSelect.render env i (onJournalSelect.icon content.Action) node gui.entries
        = (none, t) ∧
      gui1 = { (gui.record (.EntryGetContent e.UID)).record (.ParseCalendar content.Content) with
            entries := (t.Select 1 0).ScrollToBeginning } := by
  cases hd : env.EntryGetContent e cipher with
  | error err => rw [body_decode_error env cipher i e gui err hd] at h; cases h
  | ok content =>
    cases hp : env.ParseCalendar content.Content with
    | error err => rw [body_parse_error env cipher i e gui content err hd hp] at h; cases h
    | ok node =>
      rcases hr : onJournalSelect.render env i (onJournalSelect.icon content.Action) node
          gui.entries with ⟨_ | v, t⟩
      · rw [body_continue env cipher i e gui content node t hd hp hr] at h
        cases h
        exact ⟨content, node, t, rfl, hp, hr, rfl⟩
      · rw [body_render_panic env cipher i e gui content node v t hd hp hr] at h; cases h

/-- The three ways in which the body ends the call. -/
theorem body_some (env : Env) (cipher : Cipher) (i : Nat) (e : Entry) (gui gui1 : GUI)
    (out : Outcome) (h : onJournalSelect.body env cipher i e gui = (some out, gui1)) :
    (∃ err, env.EntryGetContent e cipher = .error err ∧ out = .error err ∧
        gui1 = gui.record (.EntryGetContent e.UID)) ∨
    (∃ content err, env.EntryGetContent e cipher = .ok content ∧
        env.ParseCalendar content.Content = .error err ∧ out = .error err ∧
        gui1 = (gui.record (.EntryGetContent e.UID)).record (.ParseCalendar content.Content)) ∨
    (∃ content node v t, env.EntryGetContent e cipher = .ok content ∧
        env.ParseCalendar content.Content = .ok node ∧
        onJournalSelect.render env i (onJournalSelect.icon content.Action) node gui.entries
          = (some v, t) ∧
        out = .panic v ∧
        gui1 = { (gui.record (.EntryGetContent e.UID)).record
          (.ParseCalendar content.Content) with entries := t }) := by
  cases hd : env.EntryGetContent e cipher with
  | error err =>
    rw [body_decode_error env cipher i e gui err hd] at h; cases h
    exact Or.inl ⟨err, rfl, rfl, rfl⟩
  | ok content =>
    cases hp : env.ParseCalendar content.Content with
    | error err =>
      rw [body_parse_error env cipher i e gui content err hd hp] at h; cases h
      exact Or.inr (Or.inl ⟨content, err, rfl, hp, rfl, rfl⟩)
    | ok node =>
      rcases hr : onJournalSelect.render env i (onJournalSelect.icon content.Action) node
          gui.entries with ⟨_ | v, t⟩
      · rw [body_continue env cipher i e gui content node t hd hp hr] at h
        cases h
      · rw [body_render_panic env cipher i e gui content node v t hd hp hr] at h; cases h
        exact Or.inr (Or.inr ⟨content, node, v, t, rfl, hp, hr, rfl, rfl⟩)

/-- A node of a renderable shape on which the switch does not panic has a row. -/
theorem entryRow_some (env : Env) (content : EntryContent) (node : Node)
    (hr : Spec.renderable node) (hv : onJournalSelect.panicValue env node = none) :
    ∃ x y z, Spec.entryRow env content node = some (x, y, z) := by
  unfold Spec.entryRow
  rcases render_cases env node with h1 | ⟨h1, h2, child, hc, w, hw⟩ |
    ⟨h1, h2, child, hc, v, hw⟩ | ⟨h1, h2, hc⟩ | ⟨h1, h2⟩
  · rw [if_pos h1]; exact ⟨_, _, _, rfl⟩
  · rw [if_neg h1, if_pos h2, hc]
    simp only [hw]
    exact ⟨_, _, _, rfl⟩
  · obtain ⟨w, hw'⟩ := ((panicValue_none_iff env node).1 hv).2 h1 child hc
    rw [hw] at hw'
    cases hw'
  · rcases hr with h | ⟨-, h⟩
    · exact absurd h h1
    · rw [hc] at h; cases h
  · rcases hr with h | ⟨h, -⟩
    · exact absurd h h1
    · exact absurd h h2

/-- The body never ends the call with `return nil`. -/
theorem body_some_ne_ok (env : Env) (cipher : Cipher) (i : Nat) (e : Entry) (gui gui1 : GUI)
    (h : onJournalSelect.body env cipher i e gui = (some .ok, gui1)) : False := by
  rcases body_some env cipher i e gui gui1 .ok h with
    ⟨_, _, h, _⟩ | ⟨_, _, _, _, h, _⟩ | ⟨_, _, _, _, _, _, _, h, _⟩ <;> cases h

/-- How the body ends for an entry that decodes and parses depends on the
parsed node alone. -/
theorem body_fst (env : Env) (cipher : Cipher) (i : Nat) (e : Entry) (gui : GUI)
    (content : EntryContent) (node : Node)
    (h : env.EntryGetContent e cipher = .ok content)
    (hp : env.ParseCalendar content.Content = .ok node) :
    (onJournalSelect.body env cipher i e gui).1
      = (onJournalSelect.panicValue env node).map Outcome.panic := by
  have hr := render_pair env i (onJournalSelect.icon content.Action) node gui.entries
  cases hv : onJournalSelect.panicValue env node with
  | none =>
    rw [hv] at hr
    rw [body_continue env cipher i e gui content node _ h hp hr]
    rfl
  | some v =>
    rw [hv] at hr
    rw [body_render_panic env cipher i e gui content node v _ h hp hr]
    rfl

/-- The entry table after the body, however it ends, for an entry that decodes
and parses: what the switch left. -/
theorem body_cells (env : Env) (cipher : Cipher) (i : Nat) (e : Entry) (gui : GUI)
    (content : EntryContent) (node : Node)
    (h : env.EntryGetContent e cipher = .ok content)
    (hp : env.ParseCalendar content.Content = .ok node) :
    (onJournalSelect.body env cipher i e gui).2.entries.cells
      = (onJournalSelect.render env i (onJournalSelect.icon content.Action) node
          gui.entries).2.cells := by
  have hr := render_pair env i (onJournalSelect.icon content.Action) node gui.entries
  cases hv : onJournalSelect.panicValue env node with
  | none =>
    rw [hv] at hr
    rw [body_continue env cipher i e gui content node _ h hp hr]
    rfl
  | some v =>
    rw [hv] at hr
    rw [body_render_panic env cipher i e gui content node v _ h hp hr]

/-- The body never touches the key. -/
theorem body_key (env : Env) (cipher : Cipher) (i : Nat) (e : Entry) (gui gui1 : GUI)
    (out : Option Outcome) (h : onJournalSelect.body env cipher i e gui = (out, gui1)) :
    gui1.key = gui.key := by
  cases out with
  | none =>
    obtain ⟨_, _, _, _, _, _, rfl⟩ := body_none env cipher i e gui gui1 h
    rfl
  | some o =>
    rcases body_some env cipher i e gui gui1 o h with
      ⟨_, _, _, rfl⟩ | ⟨_, _, _, _, _, rfl⟩ | ⟨_, _, _, _, _, _, _, _, rfl⟩ <;> rfl

/-- Cells the body leaves alone, however it ends: everything outside row
`i + 1` and, when `i = 0`, row 0; and every column from 3 on. -/
theorem body_frame (env : Env) (cipher : Cipher) (i : Nat) (e : Entry) (gui gui1 : GUI)
    (out : Option Outcome) (h : onJournalSelect.body env cipher i e gui = (out, gui1))
    (r c : Nat) (hrc : (r ≠ i + 1 ∧ ¬ (r = 0 ∧ i = 0)) ∨ 3 ≤ c) :
    gui1.entries.cells r c = gui.entries.cells r c := by
  cases out with
  | none =>
    obtain ⟨content, node, t, _, _, hr, rfl⟩ := body_none env cipher i e gui gui1 h
    have := render_frame env i (onJournalSelect.icon content.Action) node gui.entries r c hrc
    rw [hr] at this
    simpa using this
  | some o =>
    rcases body_some env cipher i e gui gui1 o h with
      ⟨_, _, _, rfl⟩ | ⟨_, _, _, _, _, rfl⟩ | ⟨content, node, v, t, _, _, hr, _, rfl⟩
    · rfl
    · rfl
    · have := render_frame env i (onJournalSelect.icon content.Action) node gui.entries r c hrc
      rw [hr] at this
      exact this

/-- Cells of the entry table after one step of the body that lets the loop go
on. -/
theorem body_none_cells (env : Env) (cipher : Cipher) (i : Nat) (e : Entry) (gui gui1 : GUI)
    (h : onJournalSelect.body env cipher i e gui = (none, gui1)) :
    ∃ content node,
      env.EntryGetContent e cipher = .ok content ∧
      env.ParseCalendar content.Content = .ok node ∧
      onJournalSelect.panicValue env node = none ∧
      ∀ r c, gui1.entries.cells r c =
        if r = i + 1 then
          match Spec.entryRow env content node with
          | some (x, y, z) =>
            if c = 0 then some (NewTableCell x) else if c = 1 then some (NewTableCell y)
            else if c = 2 then some (NewTableCell z) else gui.entries.cells r c
          | none => gui.entries.cells r c
        else if r = 0 ∧ i = 0 then
          if c = 0 then some (headerCell (Spec.headers node).1)
          else if c = 1 then some (headerCell (Spec.headers node).2.1)
          else if c = 2 then some (headerCell (Spec.headers node).2.2)
          else gui.entries.cells r c
        else gui.entries.cells r c := by
  obtain ⟨content, node, t, hd, hp, hr, rfl⟩ := body_none env cipher i e gui gui1 h
  have hnone : onJournalSelect.panicValue env node = none := by
    rw [← render_fst env i (onJournalSelect.icon content.Action) node gui.entries, hr]
  refine ⟨content, node, hd, hp, hnone, ?_⟩
  intro r c
  have := render_cells env i content node gui.entries t hr r c
  simpa using this

/-! ## The pass over the entries -/

theorem pass_nil (env : Env) (cipher : Cipher) (i : Nat) (gui : GUI) :
    onJournalSelect.pass env cipher i [] gui = (.ok, gui) := rfl

theorem pass_cons_none (env : Env) (cipher : Cipher) (i : Nat) (e : Entry) (rest : List Entry)
    (gui gui1 : GUI) (h : onJournalSelect.body env cipher i e gui = (none, gui1)) :
    onJournalSelect.pass env cipher i (e :: rest) gui
      = onJournalSelect.pass env cipher (i + 1) rest gui1 := by
  simp only [onJournalSelect.pass, h]

theorem pass_cons_some (env : Env) (cipher : Cipher) (i : Nat) (e : Entry) (rest : List Entry)
    (gui gui1 : GUI) (out : Outcome)
    (h : onJournalSelect.body env cipher i e gui = (some out, gui1)) :
    onJournalSelect.pass env cipher i (e :: rest) gui = (out, gui1) := by
  simp only [onJournalSelect.pass, h]

/-- The first `n` iterations of the `for` loop from index `i` are the pass over
the corresponding stretch of the reversed slice. -/
theorem loop_eq_pass_take (env : Env) (cipher : Cipher) (es : List Entry) :
    ∀ (n i : Nat) (gui : GUI), i + n ≤ es.length →
      onJournalSelect.loop env cipher es i n gui
        = onJournalSelect.pass env cipher i ((es.reverse.drop i).take n) gui := by
  intro n
  induction n with
  | zero => intro i gui _; rfl
  | succ n ih =>
    intro i gui h
    have hi : i < es.reverse.length := by simp; omega
    have hget : es[es.length - i - 1]? = some (es.reverse[i]) := by
      rw [List.getElem_reverse]
      have : es.length - i - 1 = es.length - 1 - i := by omega
      rw [this]
      exact List.getElem?_eq_getElem _
    rw [List.drop_eq_getElem_cons hi, List.take_succ_cons]
    unfold onJournalSelect.loop onJournalSelect.pass
    simp only [hget]
    rcases hb : onJournalSelect.body env cipher i es.reverse[i] gui with ⟨_ | out, gui1⟩
    · simp only
      exact ih (i + 1) gui1 (by omega)
    · simp only

/-- The `for` loop is the pass over the reversed slice. -/
theorem loop_eq_pass (env : Env) (cipher : Cipher) (es : List Entry) (gui : GUI) :
    onJournalSelect.loop env cipher es 0 es.length gui
      = onJournalSelect.pass env cipher 0 es.reverse gui := by
  rw [loop_eq_pass_take env cipher es es.length 0 gui (by omega), List.drop_zero,
    List.take_of_length_le (by simp)]

/-- The pass never touches the key. -/
theorem pass_key (env : Env) (cipher : Cipher) :
    ∀ (xs : List Entry) (i : Nat) (gui gui1 : GUI) (out : Outcome),
      onJournalSelect.pass env cipher i xs gui = (out, gui1) → gui1.key = gui.key := by
  intro xs
  induction xs with
  | nil => intro i gui gui1 out h; rw [pass_nil] at h; cases h; rfl
  | cons e rest ih =>
    intro i gui gui1 out h
    rcases hb : onJournalSelect.body env cipher i e gui with ⟨_ | o, gui2⟩
    · rw [pass_cons_none env cipher i e rest gui gui2 hb] at h
      rw [ih (i + 1) gui2 gui1 out h, body_key env cipher i e gui gui2 none hb]
    · rw [pass_cons_some env cipher i e rest gui gui2 o hb] at h
      cases h
      exact body_key env cipher i e gui gui1 (some out) hb

/-- Rows that the pass starting at index `i` over `xs` leaves alone: rows up to
`i` (row 0 only when `i` is not 0), rows beyond `i + xs.length`, and every
column from 3 on. -/
theorem pass_frame (env : Env) (cipher : Cipher) :
    ∀ (xs : List Entry) (i : Nat) (gui gui1 : GUI) (out : Outcome),
      onJournalSelect.pass env cipher i xs gui = (out, gui1) →
      ∀ r c, ((r ≤ i ∧ ¬ (r = 0 ∧ i = 0)) ∨ i + xs.length < r ∨ 3 ≤ c) →
        gui1.entries.cells r c = gui.entries.cells r c := by
  intro xs
  induction xs with
  | nil => intro i gui gui1 out h; rw [pass_nil] at h; cases h; intros; rfl
  | cons e rest ih =>
    intro i gui gui1 out h r c hrc
    simp only [List.length_cons] at hrc
    have hbody : (r ≠ i + 1 ∧ ¬ (r = 0 ∧ i = 0)) ∨ 3 ≤ c := by
      rcases hrc with ⟨h1, h2⟩ | h1 | h1
      · exact Or.inl ⟨by omega, h2⟩
      · exact Or.inl ⟨by omega, by omega⟩
      · exact Or.inr h1
    rcases hb : onJournalSelect.body env cipher i e gui with ⟨_ | o, gui2⟩
    · rw [pass_cons_none env cipher i e rest gui gui2 hb] at h
      have h1 : gui1.entries.cells r c = gui2.entries.cells r c := by
        apply ih (i + 1) gui2 gui1 out h r c
        rcases hrc with ⟨h1, h2⟩ | h1 | h1
        · left; constructor
          · omega
          · omega
        · right; left; omega
        · right; right; exact h1
      rw [h1]
      exact body_frame env cipher i e gui gui2 none hb r c hbody
    · rw [pass_cons_some env cipher i e rest gui gui2 o hb] at h
      cases h
      exact body_frame env cipher i e gui gui1 (some out) hb r c hbody

/-- Rows written by a pass that returns: row `i + k + 1` is built from the
`k`-th entry processed. -/
theorem pass_rows (env : Env) (cipher : Cipher) :
    ∀ (xs : List Entry) (i : Nat) (gui gui1 : GUI),
      onJournalSelect.pass env cipher i xs gui = (.ok, gui1) →
      ∀ (k : Nat) (hk : k < xs.length), ∃ content node,
        env.EntryGetContent xs[k] cipher = .ok content ∧
        env.ParseCalendar content.Content = .ok node ∧
        onJournalSelect.panicValue env node = none ∧
        ∀ c, gui1.entries.cells (i + k + 1) c =
          match Spec.entryRow env content node with
          | some (x, y, z) =>
            if c = 0 then some (NewTableCell x) else if c = 1 then some (NewTableCell y)
            else if c = 2 then some (NewTableCell z) else gui.entries.cells (i + k + 1) c
          | none => gui.entries.cells (i + k + 1) c := by
  intro xs
  induction xs with
  | nil => intro i gui gui1 _ k hk; simp at hk
  | cons e rest ih =>
    intro i gui gui1 h k hk
    rcases hb : onJournalSelect.body env cipher i e gui with ⟨_ | o, gui2⟩
    · rw [pass_cons_none env cipher i e rest gui gui2 hb] at h
      obtain ⟨content, node, hd, hp, hn, hcells⟩ := body_none_cells env cipher i e gui gui2 hb
      cases k with
      | zero =>
        refine ⟨content, node, hd, hp, hn, fun c => ?_⟩
        have hf := pass_frame env cipher rest (i + 1) gui2 gui1 .ok h (i + 1) c
          (Or.inl ⟨le_refl _, by omega⟩)
        have := hcells (i + 1) c
        rw [if_pos rfl] at this
        exact hf.trans this
      | succ k =>
        have hk' : k < rest.length := by simpa using hk
        obtain ⟨content', node', hd', hp', hn', hcells'⟩ := ih (i + 1) gui2 gui1 h k hk'
        refine ⟨content', node', by simpa using hd', hp', hn', fun c => ?_⟩
        have e1 : i + (k + 1) + 1 = i + 1 + k + 1 := by omega
        have h2 := hcells (i + 1 + k + 1) c
        rw [if_neg (by omega), if_neg (by omega)] at h2
        rw [e1, hcells' c, h2]
    · rw [pass_cons_some env cipher i e rest gui gui2 o hb] at h
      cases h
      exact (body_some_ne_ok env cipher i e gui gui1 hb).elim

/-- Row 0 after a pass from index 0 that returns: the headers chosen by the
first entry processed. -/
theorem pass_header (env : Env) (cipher : Cipher) (e : Entry) (rest : List Entry)
    (gui gui1 : GUI) (h : onJournalSelect.pass env cipher 0 (e :: rest) gui = (.ok, gui1)) :
    ∃ content node,
      env.EntryGetContent e cipher = .ok content ∧
      env.ParseCalendar content.Content = .ok node ∧
      onJournalSelect.panicValue env node = none ∧
      ∀ c, gui1.entries.cells 0 c =
        if c = 0 then some (headerCell (Spec.headers node).1)
        else if c = 1 then some (headerCell (Spec.headers node).2.1)
        else if c = 2 then some (headerCell (Spec.headers node).2.2)
        else gui.entries.cells 0 c := by
  rcases hb : onJournalSelect.body env cipher 0 e gui with ⟨_ | o, gui2⟩
  · rw [pass_cons_none env cipher 0 e rest gui gui2 hb] at h
    obtain ⟨content, node, hd, hp, hn, hcells⟩ := body_none_cells env cipher 0 e gui gui2 hb
    refine ⟨content, node, hd, hp, hn, fun c => ?_⟩
    have hf := pass_frame env cipher rest 1 gui2 gui1 .ok h 0 c (Or.inl ⟨by omega, by omega⟩)
    have := hcells 0 c
    rw [if_neg (by omega), if_pos ⟨rfl, rfl⟩] at this
    rw [hf, this]
  · rw [pass_cons_some env cipher 0 e rest gui gui2 o hb] at h
    cases h
    exact (body_some_ne_ok env cipher 0 e gui gui1 hb).elim

/-- The outcome of a pass and the cells it leaves depend on the state it starts
from only through the cells of the entry table. -/
theorem pass_congr (env : Env) (cipher : Cipher) :
    ∀ (xs : List Entry) (i : Nat) (g h : GUI), g.entries.cells = h.entries.cells →
      (onJournalSelect.pass env cipher i xs g).1 = (onJournalSelect.pass env cipher i xs h).1 ∧
      (onJournalSelect.pass env cipher i xs g).2.entries.cells
        = (onJournalSelect.pass env cipher i xs h).2.entries.cells := by
  intro xs
  induction xs with
  | nil => intro i g h hc; exact ⟨rfl, hc⟩
  | cons e rest ih =>
    intro i g h hc
    cases hd : env.EntryGetContent e cipher with
    | error err =>
      rw [pass_cons_some env cipher i e rest g _ _ (body_decode_error env cipher i e g err hd),
        pass_cons_some env cipher i e rest h _ _ (body_decode_error env cipher i e h err hd)]
      exact ⟨rfl, hc⟩
    | ok content =>
      cases hp : env.ParseCalendar content.Content with
      | error err =>
        rw [pass_cons_some env cipher i e rest g _ _
            (body_parse_error env cipher i e g content err hd hp),
          pass_cons_some env cipher i e rest h _ _
            (body_parse_error env cipher i e h content err hd hp)]
        exact ⟨rfl, hc⟩
      | ok node =>
        have hrg := render_pair env i (onJournalSelect.icon content.Action) node g.entries
        have hrh := render_pair env i (onJournalSelect.icon content.Action) node h.entries
        have hcells := render_congr env i (onJournalSelect.icon content.Action) node
          g.entries h.entries hc
        cases hv : onJournalSelect.panicValue env node with
        | none =>
          rw [hv] at hrg hrh
          rw [pass_cons_none env cipher i e rest g _
              (body_continue env cipher i e g content node _ hd hp hrg),
            pass_cons_none env cipher i e rest h _
              (body_continue env cipher i e h content node _ hd hp hrh)]
          apply ih
          simpa using hcells
        | some v =>
          rw [hv] at hrg hrh
          rw [pass_cons_some env cipher i e rest g _ _
              (body_render_panic env cipher i e g content node v _ hd hp hrg),
            pass_cons_some env cipher i e rest h _ _
              (body_render_panic env cipher i e h content node v _ hd hp hrh)]
          exact ⟨rfl, hcells⟩

/-! ## `onJournalSelect` as a loop and as a pass -/

theorem onJournalSelect_fetch_error (env : Env) (gui : GUI) (j : Journal) (err : Error)
    (h : env.JournalEntries j.UID = .error err) :
    onJournalSelect env gui j = (.error err, gui.record (.JournalEntries j.UID)) := by
  unfold onJournalSelect
  simp only [h]

theorem onJournalSelect_fatal (env : Env) (gui : GUI) (j : Journal) (es : List Entry)
    (err : Error) (h : env.JournalEntries j.UID = .ok es)
    (hj : env.JournalGetContent j (cryptoNew j.UID gui.key) = .error err) :
    onJournalSelect env gui j
      = (.fatal err, (gui.record (.JournalEntries j.UID)).record (.JournalGetContent j.UID)) := by
  unfold onJournalSelect
  simp only [h, GUI.key_record, hj]

/-- `onJournalSelect` past its two fetches is the `for` loop over all entries. -/
theorem onJournalSelect_eq_loop (env : Env) (gui : GUI) (j : Journal) (es : List Entry)
    (jc : JournalContent) (h : env.JournalEntries j.UID = .ok es)
    (hj : env.JournalGetContent j (cryptoNew j.UID gui.key) = .ok jc) :
    onJournalSelect env gui j
      = onJournalSelect.loop env (cryptoNew j.UID gui.key) es 0 es.length
          (onJournalSelect.start gui j jc) := by
  unfold onJournalSelect
  simp only [h, GUI.key_record, hj]
  rfl

theorem onJournalSelect_eq_pass (env : Env) (gui : GUI) (j : Journal) (es : List Entry)
    (jc : JournalContent) (h : env.JournalEntries j.UID = .ok es)
    (hj : env.JournalGetContent j (cryptoNew j.UID gui.key) = .ok jc) :
    onJournalSelect env gui j
      = onJournalSelect.pass env (cryptoNew j.UID gui.key) 0 es.reverse
          (onJournalSelect.start gui j jc) := by
  rw [onJournalSelect_eq_loop env gui j es jc h hj, loop_eq_pass]

/-- A call that returns `nil` fetched the entries, decoded the journal and ran
the pass to its end. -/
theorem onJournalSelect_ok (env : Env) (gui gui1 : GUI) (j : Journal)
    (h : onJournalSelect env gui j = (.ok, gui1)) :
    ∃ es jc, env.JournalEntries j.UID = .ok es ∧
      env.JournalGetContent j (cryptoNew j.UID gui.key) = .ok jc ∧
      onJournalSelect.pass env (cryptoNew j.UID gui.key) 0 es.reverse
          (onJournalSelect.start gui j jc) = (.ok, gui1) := by
  cases hf : env.JournalEntries j.UID with
  | error err => rw [onJournalSelect_fetch_error env gui j err hf] at h; cases h
  | ok es =>
    cases hj : env.JournalGetContent j (cryptoNew j.UID gui.key) with
    | error err => rw [onJournalSelect_fatal env gui j es err hf hj] at h; cases h
    | ok jc =>
      rw [onJournalSelect_eq_pass env gui j es jc hf hj] at h
      exact ⟨es, jc, rfl, rfl, h⟩

/-- One iteration of the `for` loop whose body lets the loop go on. -/
theorem loop_step (env : Env) (cipher : Cipher) (es : List Entry) (i n : Nat) (e : Entry)
    (gui gui1 : GUI) (he : es[es.length - i - 1]? = some e)
    (hb : onJournalSelect.body env cipher i e gui = (none, gui1)) :
    onJournalSelect.loop env cipher es i (n + 1) gui
      = onJournalSelect.loop env cipher es (i + 1) n gui1 := by
  rw [onJournalSelect.loop]
  simp only [he, hb]

/-- One iteration of the `for` loop whose body ends the call. -/
theorem loop_stop (env : Env) (cipher : Cipher) (es : List Entry) (i n : Nat) (e : Entry)
    (gui gui1 : GUI) (out : Outcome) (he : es[es.length - i - 1]? = some e)
    (hb : onJournalSelect.body env cipher i e gui = (some out, gui1)) :
    onJournalSelect.loop env cipher es i (n + 1) gui = (out, gui1) := by
  rw [onJournalSelect.loop]
  simp only [he, hb]

/-- Iterations that complete can be split off the front of the loop. -/
theorem loop_split (env : Env) (cipher : Cipher) (es : List Entry) (m : Nat) :
    ∀ (k i : Nat) (g g1 : GUI),
      onJournalSelect.loop env cipher es i k g = (.ok, g1) →
      onJournalSelect.loop env cipher es i (k + m) g
        = onJournalSelect.loop env cipher es (i + k) m g1 := by
  intro k
  induction k with
  | zero =>
    intro i g g1 h
    rw [onJournalSelect.loop] at h
    cases h
    simp
  | succ k ih =>
    intro i g g1 h
    have e1 : k + 1 + m = (k + m) + 1 := by omega
    have e2 : i + (k + 1) = i + 1 + k := by omega
    rw [e1, e2]
    rw [onJournalSelect.loop] at h ⊢
    cases he : es[es.length - i - 1]? with
    | none => simp only [he] at h; cases h
    | some e =>
      simp only [he] at h ⊢
      rcases hb : onJournalSelect.body env cipher i e g with ⟨_ | out, g2⟩
      · simp only [hb] at h ⊢
        exact ih (i + 1) g2 g1 h
      · simp only [hb] at h ⊢
        cases h
        exact (body_some_ne_ok env cipher i e g g1 hb).elim

theorem childByName_none (node : Node) (name : String)
    (h : ∀ p ∈ node.Children, p.Name ≠ name) : node.ChildByName name = none := by
  unfold Node.ChildByName
  rw [List.find?_eq_none]
  intro p hp
  simpa using h p hp

theorem propString_none (node : Node) (name d : String)
    (h : ∀ p ∈ node.Children, p.Name ≠ name) : node.PropString name d = d := by
  unfold Node.PropString
  rw [childByName_none node name h]

theorem propDate_none (env : Env) (node : Node) (name : String) (d : Time)
    (h : ∀ p ∈ node.Children, p.Name ≠ name) : node.PropDate env name d = .ok d := by
  unfold Node.PropDate
  rw [childByName_none node name h]

theorem propDate_some (env : Env) (node p : Node) (name : String) (d : Time)
    (h : node.ChildByName name = some p) : node.PropDate env name d = env.parseTime p := by
  unfold Node.PropDate
  rw [h]

/-- What the iteration at index `i` leaves in row `i + 1` is still there when
the loop ends, however it ends. -/
theorem loop_keeps_row (env : Env) (cipher : Cipher) (es : List Entry) (i n : Nat)
    (gui1 : GUI) (h : i + 1 + n ≤ es.length) (c : Nat) :
    (onJournalSelect.loop env cipher es (i + 1) n gui1).2.entries.cells (i + 1) c
      = gui1.entries.cells (i + 1) c := by
  rw [loop_eq_pass_take env cipher es n (i + 1) gui1 h]
  exact pass_frame env cipher _ (i + 1) gui1 _ _ rfl (i + 1) c (Or.inl ⟨le_refl _, by omega⟩)

theorem start_cells (gui : GUI) (j : Journal) (jc : JournalContent) (r c : Nat) :
    (onJournalSelect.start gui j jc).entries.cells r c = none := rfl

theorem start_key (gui : GUI) (j : Journal) (jc : JournalContent) :
    (onJournalSelect.start gui j jc).key = gui.key := rfl

/-- Rows beyond `k` are still empty after the first `k` iterations. -/
theorem loop_rows_beyond (env : Env) (gui gui1 : GUI) (j : Journal) (es : List Entry)
    (jc : JournalContent) (k : Nat) (out : Outcome) (hk : k ≤ es.length)
    (h : onJournalSelect.loop env (cryptoNew j.UID gui.key) es 0 k
      (onJournalSelect.start gui j jc) = (out, gui1)) (r c : Nat) (hr : k < r) :
    gui1.entries.cells r c = none := by
  rw [loop_eq_pass_take env _ es k 0 _ (by omega)] at h
  have hlen : ((es.reverse.drop 0).take k).length ≤ k := by
    rw [List.length_take]; exact Nat.min_le_left _ _
  rw [pass_frame env _ _ 0 _ gui1 out h r c (Or.inr (Or.inl (by omega)))]
  exact start_cells gui j jc r c

/-- The body of an iteration other than the first leaves row 0 alone. -/
theorem body_keeps_header (env : Env) (cipher : Cipher) (i : Nat) (e : Entry) (g : GUI)
    (hi : 0 < i) (c : Nat) :
    (onJournalSelect.body env cipher i e g).2.entries.cells 0 c = g.entries.cells 0 c :=
  body_frame env cipher i e g _ _ rfl 0 c (Or.inl ⟨by omega, by omega⟩)

/-- The index the loop reads at iteration `i`. -/
theorem loop_index (es : List Entry) (i : Nat) (hi : i < es.length) :
    es[es.length - i - 1]? = some (es[es.length - 1 - i]) := by
  have : es.length - i - 1 = es.length - 1 - i := by omega
  rw [this]
  exact List.getElem?_eq_getElem _

/-- The call as the iterations from index `i` on, once the `i` newest entries
have been processed. -/
theorem onJournalSelect_from (env : Env) (gui gui0 : GUI) (j : Journal) (es : List Entry)
    (jc : JournalContent) (i : Nat)
    (hfetch : env.JournalEntries j.UID = .ok es)
    (hjc : env.JournalGetContent j (cryptoNew j.UID gui.key) = .ok jc)
    (hi : i < es.length)
    (hreach : onJournalSelect.loop env (cryptoNew j.UID gui.key) es 0 i
      (onJournalSelect.start gui j jc) = (.ok, gui0)) :
    onJournalSelect env gui j
      = onJournalSelect.loop env (cryptoNew j.UID gui.key) es i
          ((es.length - (i + 1)) + 1) gui0 := by
  have hlen : es.length = i + ((es.length - (i + 1)) + 1) := by omega
  rw [onJournalSelect_eq_loop env gui j es jc hfetch hjc]
  conv_lhs => rw [hlen]
  rw [loop_split env _ es _ i 0 _ gui0 hreach, Nat.zero_add]

/-- Row `i + 1` when the call ends, once the `i` newest entries have been
processed and the next one decodes and parses: what the switch left there,
however the call ends. -/
theorem onJournalSelect_row_cells (env : Env) (gui gui0 : GUI) (j : Journal)
    (es : List Entry) (jc : JournalContent) (i : Nat) (content : EntryContent) (node : Node)
    (hfetch : env.JournalEntries j.UID = .ok es)
    (hjc : env.JournalGetContent j (cryptoNew j.UID gui.key) = .ok jc)
    (hi : i < es.length)
    (hreach : onJournalSelect.loop env (cryptoNew j.UID gui.key) es 0 i
      (onJournalSelect.start gui j jc) = (.ok, gui0))
    (hd : env.EntryGetContent (es[es.length - 1 - i]) (cryptoNew j.UID gui.key) = .ok content)
    (hp : env.ParseCalendar content.Content = .ok node) (c : Nat) :
    (onJournalSelect env gui j).2.entries.cells (i + 1) c
      = (onJournalSelect.render env i (onJournalSelect.icon content.Action) node
          gui0.entries).2.cells (i + 1) c := by
  have he := loop_index es i hi
  rw [onJournalSelect_from env gui gui0 j es jc i hfetch hjc hi hreach,
    ← body_cells env (cryptoNew j.UID gui.key) i _ gui0 content node hd hp]
  rcases hb : onJournalSelect.body env (cryptoNew j.UID gui.key) i (es[es.length - 1 - i]) gui0
    with ⟨_ | out, g1⟩
  · rw [loop_step env _ es i _ _ gui0 g1 he hb,
      loop_keeps_row env _ es i _ g1 (by omega) c]
  · rw [loop_stop env _ es i _ _ gui0 g1 out he hb]

/-- The iteration for an entry on which the switch does not panic, seen from
the whole call: when the `i` newest entries have been processed, the iteration
at index `i` completes as well, the call goes on with the remaining iterations,
and when the call ends row `i + 1` holds the specification's row for the entry
and nothing else. -/
theorem onJournalSelect_row (env : Env) (gui gui0 : GUI) (j : Journal) (es : List Entry)
    (jc : JournalContent) (i : Nat) (content : EntryContent) (node : Node)
    (hfetch : env.JournalEntries j.UID = .ok es)
    (hjc : env.JournalGetContent j (cryptoNew j.UID gui.key) = .ok jc)
    (hi : i < es.length)
    (hreach : onJournalSelect.loop env (cryptoNew j.UID gui.key) es 0 i
      (onJournalSelect.start gui j jc) = (.ok, gui0))
    (hd : env.EntryGetContent (es[es.length - 1 - i]) (cryptoNew j.UID gui.key) = .ok content)
    (hp : env.ParseCalendar content.Content = .ok node)
    (hv : onJournalSelect.panicValue env node = none) :
    (∃ gui1,
      onJournalSelect.loop env (cryptoNew j.UID gui.key) es 0 (i + 1)
        (onJournalSelect.start gui j jc) = (.ok, gui1) ∧
      onJournalSelect env gui j
        = onJournalSelect.loop env (cryptoNew j.UID gui.key) es (i + 1)
            (es.length - (i + 1)) gui1) ∧
    ∀ c, (onJournalSelect env gui j).2.entries.cells (i + 1) c =
      match Spec.entryRow env content node with
      | some (x, y, z) =>
        if c = 0 then some (NewTableCell x) else if c = 1 then some (NewTableCell y)
        else if c = 2 then some (NewTableCell z) else none
      | none => none := by
  have he := loop_index es i hi
  have hr := render_pair env i (onJournalSelect.icon content.Action) node gui0.entries
  rw [hv] at hr
  obtain ⟨g1, hb⟩ : ∃ g1, onJournalSelect.body env (cryptoNew j.UID gui.key) i
      (es[es.length - 1 - i]) gui0 = (none, g1) :=
    ⟨_, body_continue env (cryptoNew j.UID gui.key) i _ gui0 content node _ hd hp hr⟩
  have hcall := onJournalSelect_from env gui gui0 j es jc i hfetch hjc hi hreach
  refine ⟨⟨g1, ?_, ?_⟩, ?_⟩
  · rw [loop_split env _ es 1 i 0 _ gui0 hreach, Nat.zero_add,
      loop_step env _ es i 0 _ gui0 g1 he hb]
    rfl
  · rw [hcall, loop_step env _ es i _ _ gui0 g1 he hb]
  · intro c
    have hnone : gui0.entries.cells (i + 1) c = none :=
      loop_rows_beyond env gui gui0 j es jc i .ok (by omega) hreach (i + 1) c (by omega)
    have h1 := onJournalSelect_row_cells env gui gui0 j es jc i content node hfetch hjc hi
      hreach hd hp c
    have h2 := render_cells env i content node gui0.entries _ hr (i + 1) c
    rw [if_pos rfl, hnone] at h2
    exact h1.trans h2

/-- When the first `k` iterations of `onJournalSelect` complete and the body
ends the call at index `k`, the call ends that way in the state the body left.
Before that iteration the table is empty if `k = 0`; otherwise row 0 holds the
headers chosen by the newest entry, rows 1 to `k` hold the rows of the `k`
newest entries (no cell for an entry without a renderable shape) and every row
beyond `k` is empty. -/
theorem onJournalSelect_stops (env : Env) (gui gui1 gui2 : GUI) (j : Journal)
    (es : List Entry) (jc : JournalContent) (k : Nat) (out : Outcome)
    (hfetch : env.JournalEntries j.UID = .ok es)
    (hjc : env.JournalGetContent j (cryptoNew j.UID gui.key) = .ok jc)
    (hk : k < es.length)
    (hnewer : onJournalSelect.loop env (cryptoNew j.UID gui.key) es 0 k
      (onJournalSelect.start gui j jc) = (.ok, gui1))
    (hbody : onJournalSelect.body env (cryptoNew j.UID gui.key) k (es[es.length - 1 - k]) gui1
      = (some out, gui2)) :
    onJournalSelect env gui j = (out, gui2) ∧
    (k = 0 → ∀ r c, gui1.entries.cells r c = none) ∧
    (0 < k → ∃ content node,
      env.EntryGetContent (es[es.length - 1]) (cryptoNew j.UID gui.key) = .ok content ∧
      env.ParseCalendar content.Content = .ok node ∧
      gui1.entries.headerIs (Spec.headers node).1 (Spec.headers node).2.1
        (Spec.headers node).2.2 ∧
      ∀ c, 3 ≤ c → gui1.entries.cells 0 c = none) ∧
    (∀ (i : Nat) (hi : i < k), ∃ content node,
      env.EntryGetContent (es[es.length - 1 - i]) (cryptoNew j.UID gui.key) = .ok content ∧
      env.ParseCalendar content.Content = .ok node ∧
      (∀ x y z, Spec.entryRow env content node = some (x, y, z) →
        gui1.entries.rowIs (i + 1) x y z) ∧
      (Spec.entryRow env content node = none → ∀ c, gui1.entries.cells (i + 1) c = none) ∧
      ∀ c, 3 ≤ c → gui1.entries.cells (i + 1) c = none) ∧
    (∀ r c, k < r → gui1.entries.cells r c = none) := by
  have hk' : k < es.reverse.length := by simpa using hk
  have htake := loop_eq_pass_take env (cryptoNew j.UID gui.key) es k 0
    (onJournalSelect.start gui j jc) (by omega)
  rw [hnewer, List.drop_zero] at htake
  have hlen : (es.reverse.take k).length = k := by
    rw [List.length_take]; omega
  refine ⟨?_, ?_, ?_, ?_, ?_⟩
  · rw [onJournalSelect_from env gui gui1 j es jc k hfetch hjc hk hnewer]
    exact loop_stop env _ es k _ _ gui1 gui2 out (loop_index es k hk) hbody
  · intro h0 r c
    subst h0
    rw [onJournalSelect.loop] at hnewer
    cases hnewer
    exact start_cells gui j jc r c
  · intro hpos
    obtain ⟨k', rfl⟩ : ∃ k', k = k' + 1 := ⟨k - 1, by omega⟩
    have h1 : es.reverse = es.reverse[0] :: es.reverse.drop 1 := by
      have := List.drop_eq_getElem_cons (l := es.reverse) (n := 0) (by omega)
      simpa using this
    have h2 : es.reverse[0] = es[es.length - 1] := by
      rw [List.getElem_reverse]; rfl
    have hsplit : es.reverse.take (k' + 1)
        = es[es.length - 1] :: (es.reverse.drop 1).take k' :=
      calc es.reverse.take (k' + 1)
          = (es.reverse[0] :: es.reverse.drop 1).take (k' + 1) := by rw [← h1]
        _ = es.reverse[0] :: (es.reverse.drop 1).take k' := List.take_succ_cons
        _ = es[es.length - 1] :: (es.reverse.drop 1).take k' := by rw [h2]
    rw [hsplit] at htake
    obtain ⟨content, node, hd, hp, -, hcells⟩ := pass_header env _ _ _ _ gui1 htake.symm
    refine ⟨content, node, hd, hp, ?_, ?_⟩
    · have h0 := hcells 0
      have h1 := hcells 1
      have h2 := hcells 2
      simp only [if_true, one_ne_zero, if_false] at h0 h1
      simp only [OfNat.ofNat_ne_zero, OfNat.ofNat_ne_one, if_true, if_false] at h2
      exact ⟨h0, h1, h2⟩
    · intro c hc
      have c0 : c ≠ 0 := by omega
      have c1 : c ≠ 1 := by omega
      have c2 : c ≠ 2 := by omega
      rw [hcells c, start_cells]
      simp [c0, c1, c2]
  · intro i hi
    have hi' : i < (es.reverse.take k).length := by omega
    obtain ⟨content, node, hd, hp, -, hcells⟩ :=
      pass_rows env _ (es.reverse.take k) 0 _ gui1 htake.symm i hi'
    rw [List.getElem_take, List.getElem_reverse] at hd
    simp only [Nat.zero_add, start_cells] at hcells
    refine ⟨content, node, hd, hp, fun x y z hrow => ?_, fun hrow c => ?_, fun c hc => ?_⟩
    · have h0 := hcells 0
      have h1 := hcells 1
      have h2 := hcells 2
      rw [hrow] at h0 h1 h2
      simp only [if_true, one_ne_zero, if_false] at h0 h1
      simp only [OfNat.ofNat_ne_zero, OfNat.ofNat_ne_one, if_true, if_false] at h2
      exact ⟨h0, h1, h2⟩
    · have := hcells c
      rw [hrow] at this
      exact this
    · have c0 : c ≠ 0 := by omega
      have c1 : c ≠ 1 := by omega
      have c2 : c ≠ 2 := by omega
      rw [hcells c]
      split <;> simp [c0, c1, c2]
  · intro r c hr
    exact loop_rows_beyond env gui gui1 j es jc k .ok (by omega) hnewer r c hr

/-! ## `newJournals` -/

theorem newJournals_loop_nil (env : Env) (i : Nat) (t : Table) (uids : List (Option Journal))
    (gui : GUI) : newJournals.loop env i [] t uids gui = (.ok (t, uids), gui) := rfl

theorem newJournals_loop_cons_ok (env : Env) (i : Nat) (j : Journal) (rest : List Journal)
    (t : Table) (uids : List (Option Journal)) (gui : GUI) (content : JournalContent)
    (h : env.JournalGetContent j (cryptoNew j.UID gui.key) = .ok content) :
    newJournals.loop env i (j :: rest) t uids gui
      = newJournals.loop env (i + 1) rest
          (t.SetCell i 0 (NewTableCell (newJournals.icon env content.Typ ++ " "
            ++ content.DisplayName)))
          (uids.set i (some j)) (gui.record (.JournalGetContent j.UID)) := by
  rw [newJournals.loop]
  simp only [h]

theorem newJournals_loop_cons_error (env : Env) (i : Nat) (j : Journal) (rest : List Journal)
    (t : Table) (uids : List (Option Journal)) (gui : GUI) (err : Error)
    (h : env.JournalGetContent j (cryptoNew j.UID gui.key) = .error err) :
    newJournals.loop env i (j :: rest) t uids gui
      = (.error err, gui.record (.JournalGetContent j.UID)) := by
  rw [newJournals.loop]
  simp only [h]

/-- When every journal decodes, the loop of `newJournals` returns a table whose
row `i + k` shows the icon and the name of the `k`-th journal; the other cells
are as before. -/
theorem newJournals_loop_ok (env : Env) :
    ∀ (js : List Journal) (i : Nat) (t : Table) (uids : List (Option Journal)) (gui : GUI),
      (∀ j ∈ js, ∃ c, env.JournalGetContent j (cryptoNew j.UID gui.key) = .ok c) →
      ∃ t1 uids1 gui1, newJournals.loop env i js t uids gui = (.ok (t1, uids1), gui1) ∧
        (∀ (k : Nat) (hk : k < js.length), ∃ c,
          env.JournalGetContent (js[k]) (cryptoNew (js[k]).UID gui.key) = .ok c ∧
          t1.cells (i + k) 0
            = some (NewTableCell (newJournals.icon env c.Typ ++ " " ++ c.DisplayName))) ∧
        (∀ r c, r < i → t1.cells r c = t.cells r c) := by
  intro js
  induction js with
  | nil =>
    intro i t uids gui _
    exact ⟨t, uids, gui, rfl, fun k hk => by simp at hk, fun _ _ _ => rfl⟩
  | cons j rest ih =>
    intro i t uids gui hdec
    obtain ⟨content, hc⟩ := hdec j (List.mem_cons_self _ _)
    rw [newJournals_loop_cons_ok env i j rest t uids gui content hc]
    obtain ⟨t1, uids1, gui1, hloop, hrows, hframe⟩ := ih (i + 1)
      (t.SetCell i 0 (NewTableCell (newJournals.icon env content.Typ ++ " "
        ++ content.DisplayName)))
      (uids.set i (some j)) (gui.record (.JournalGetContent j.UID))
      (fun j' hj' => hdec j' (List.mem_cons_of_mem _ hj'))
    refine ⟨t1, uids1, gui1, hloop, ?_, ?_⟩
    · intro k hk
      cases k with
      | zero =>
        refine ⟨content, hc, ?_⟩
        rw [Nat.add_zero, hframe i 0 (by omega)]
        simp
      | succ k =>
        have hk' : k < rest.length := by simpa using hk
        obtain ⟨c, hd, hcell⟩ := hrows k hk'
        refine ⟨c, by simpa using hd, ?_⟩
        have : i + (k + 1) = i + 1 + k := by omega
        rw [this]
        exact hcell
    · intro r c hr
      rw [hframe r c (by omega)]
      have : r ≠ i := by omega
      simp [this]

/-- An error returned by the loop of `newJournals` is the decoding error of one
of the journals. -/
theorem newJournals_loop_error (env : Env) :
    ∀ (js : List Journal) (i : Nat) (t : Table) (uids : List (Option Journal)) (gui g : GUI)
      (err : Error), newJournals.loop env i js t uids gui = (.error err, g) →
      ∃ j ∈ js, env.JournalGetContent j (cryptoNew j.UID gui.key) = .error err := by
  intro js
  induction js with
  | nil => intro i t uids gui g err h; rw [newJournals_loop_nil] at h; cases h
  | cons j rest ih =>
    intro i t uids gui g err h
    cases hc : env.JournalGetContent j (cryptoNew j.UID gui.key) with
    | error e =>
      rw [newJournals_loop_cons_error env i j rest t uids gui e hc] at h
      cases h
      exact ⟨j, List.mem_cons_self _ _, hc⟩
    | ok content =>
      rw [newJournals_loop_cons_ok env i j rest t uids gui content hc] at h
      obtain ⟨j', hj', hd⟩ := ih _ _ _ _ g err h
      exact ⟨j', List.mem_cons_of_mem _ hj', hd⟩

/-! ## The claims -/

/-- C1: on an entry list `es` for which `onJournalSelect` returns `nil` and in
which every entry has a renderable shape, table row `i + 1` (for every
`i < len(es)`) is the row of the fetched entry `es[len(es)-1-i]`: its three
columns are plain cells with that entry's texts and it has no further cell;
rows beyond `len(es)` are empty. The displayed order is the reverse of the
fetched order; `es` itself is a value and is not changed. -/
theorem C1_display_order (env : Env) (gui gui1 : GUI) (j : Journal) (es : List Entry)
    (hfetch : env.JournalEntries j.UID = .ok es)
    (hok : onJournalSelect env gui j = (.ok, gui1))
    (hshape : ∀ e ∈ es, ∀ content node,
      env.EntryGetContent e (cryptoNew j.UID gui.key) = .ok content →
      env.ParseCalendar content.Content = .ok node →
      Spec.renderable node) :
    (∀ (i : Nat) (hi : i < es.length), ∃ content node x y z,
      env.EntryGetContent (es[es.length - 1 - i]) (cryptoNew j.UID gui.key) = .ok content ∧
      env.ParseCalendar content.Content = .ok node ∧
      Spec.entryRow env content node = some (x, y, z) ∧
      gui1.entries.rowIs (i + 1) x y z ∧
      ∀ c, 3 ≤ c → gui1.entries.cells (i + 1) c = none) ∧
    (∀ r c, es.length < r → gui1.entries.cells r c = none) := by
  obtain ⟨es', jc, hf, hj, hpass⟩ := onJournalSelect_ok env gui gui1 j hok
  rw [hfetch] at hf
  cases hf
  constructor
  · intro i hi
    have hi' : i < es.reverse.length := by simpa using hi
    obtain ⟨content, node, hd, hp, hv, hcells⟩ :=
      pass_rows env _ es.reverse 0 _ gui1 hpass i hi'
    rw [List.getElem_reverse] at hd
    have hshaped := hshape _ (List.getElem_mem _) content node hd hp
    obtain ⟨x, y, z, hrow⟩ := entryRow_some env content node hshaped hv
    refine ⟨content, node, x, y, z, hd, hp, hrow, ?_, ?_⟩
    · have h0 := hcells 0
      have h1 := hcells 1
      have h2 := hcells 2
      rw [hrow] at h0 h1 h2
      simp only [Nat.zero_add] at h0 h1 h2
      simp only [if_true, one_ne_zero, if_false] at h0 h1
      simp only [OfNat.ofNat_ne_zero, OfNat.ofNat_ne_one, if_true, if_false] at h2
      exact ⟨h0, h1, h2⟩
    · intro c hc
      have := hcells c
      rw [hrow] at this
      simp only [Nat.zero_add, start_cells] at this
      rw [this]
      have c0 : c ≠ 0 := by omega
      have c1 : c ≠ 1 := by omega
      have c2 : c ≠ 2 := by omega
      simp [c0, c1, c2]
  · intro r c hr
    rw [pass_frame env _ es.reverse 0 _ gui1 .ok hpass r c
      (Or.inr (Or.inl (by simpa using hr)))]
    exact start_cells gui j jc r c

/-- Witness for C1: the address book of the example account, whose two entries
are shown newest first. -/
theorem C1_display_order_witness :
    (∀ (i : Nat) (hi : i < Example.contactEntries.length), ∃ content node x y z,
      Example.env.EntryGetContent
          (Example.contactEntries[Example.contactEntries.length - 1 - i])
          (cryptoNew Example.contacts.UID Example.gui.key) = .ok content ∧
      Example.env.ParseCalendar content.Content = .ok node ∧
      Spec.entryRow Example.env content node = some (x, y, z) ∧
      Example.afterContacts.entries.rowIs (i + 1) x y z ∧
      ∀ c, 3 ≤ c → Example.afterContacts.entries.cells (i + 1) c = none) ∧
    (∀ r c, Example.contactEntries.length < r →
      Example.afterContacts.entries.cells r c = none) :=
  C1_display_order Example.env Example.gui Example.afterContacts Example.contacts
    Example.contactEntries rfl (Prod.ext (by decide) rfl)
    (by
      intro e he content node hd hp
      simp only [Example.contactEntries, List.mem_cons, List.mem_singleton,
        List.not_mem_nil, or_false] at he
      rcases he with rfl | rfl
      · obtain rfl : (⟨"ADD", "card"⟩ : EntryContent) = content := Except.ok.inj hd
        obtain rfl : Example.card = node := Except.ok.inj hp
        exact Or.inl rfl
      · obtain rfl : (⟨"DELETE", "card"⟩ : EntryContent) = content := Except.ok.inj hd
        obtain rfl : Example.card = node := Except.ok.inj hp
        exact Or.inl rfl)

/-- C2 (amended): if the `k` newest entries are processed and decrypting or
parsing the next one fails, `onJournalSelect` returns that error without
processing any older entry (the last collaborator calls are those for the
failing entry). The entry table has been cleared and holds what the `k` newer
entries wrote: no cell at all when `k = 0` (the failing entry is the newest);
otherwise the header row chosen by the newest entry, in each of the rows 1 to
`k` the row of the corresponding newer entry (no cell for an entry without a
renderable shape), and no cell in any row beyond `k`. -/
theorem C2_error_keeps_newer_rows (env : Env) (gui gui1 : GUI) (j : Journal)
    (es : List Entry) (jc : JournalContent) (k : Nat) (err : Error)
    (hfetch : env.JournalEntries j.UID = .ok es)
    (hjc : env.JournalGetContent j (cryptoNew j.UID gui.key) = .ok jc)
    (hk : k < es.length)
    (hnewer : onJournalSelect.loop env (cryptoNew j.UID gui.key) es 0 k
      (onJournalSelect.start gui j jc) = (.ok, gui1))
    (hbad : env.EntryGetContent (es[es.length - 1 - k]) (cryptoNew j.UID gui.key) = .error err ∨
      ∃ content,
        env.EntryGetContent (es[es.length - 1 - k]) (cryptoNew j.UID gui.key) = .ok content ∧
        env.ParseCalendar content.Content = .error err) :
    ∃ gui2,
      onJournalSelect env gui j = (.error err, gui2) ∧
      gui2.entries = gui1.entries ∧
      (gui2.calls = gui1.calls ++ [.EntryGetContent (es[es.length - 1 - k]).UID] ∨
        ∃ content : EntryContent,
          env.EntryGetContent (es[es.length - 1 - k]) (cryptoNew j.UID gui.key) = .ok content ∧
          gui2.calls = gui1.calls ++
            [.EntryGetContent (es[es.length - 1 - k]).UID, .ParseCalendar content.Content]) ∧
      (k = 0 → ∀ r c, gui2.entries.cells r c = none) ∧
      (0 < k → ∃ content node,
        env.EntryGetContent (es[es.length - 1]) (cryptoNew j.UID gui.key) = .ok content ∧
        env.ParseCalendar content.Content = .ok node ∧
        gui2.entries.headerIs (Spec.headers node).1 (Spec.headers node).2.1
          (Spec.headers node).2.2 ∧
        ∀ c, 3 ≤ c → gui2.entries.cells 0 c = none) ∧
      (∀ (i : Nat) (hi : i < k), ∃ content node,
        env.EntryGetContent (es[es.length - 1 - i]) (cryptoNew j.UID gui.key) = .ok content ∧
        env.ParseCalendar content.Content = .ok node ∧
        (∀ x y z, Spec.entryRow env content node = some (x, y, z) →
          gui2.entries.rowIs (i + 1) x y z) ∧
        (Spec.entryRow env content node = none →
          ∀ c, gui2.entries.cells (i + 1) c = none) ∧
        ∀ c, 3 ≤ c → gui2.entries.cells (i + 1) c = none) ∧
      (∀ r c, k < r → gui2.entries.cells r c = none) := by
  rcases hbad with hd | ⟨content, hd, hp⟩
  · have hbody := body_decode_error env (cryptoNew j.UID gui.key) k _ gui1 err hd
    obtain ⟨h1, h2, h3, h4, h5⟩ :=
      onJournalSelect_stops env gui gui1 _ j es jc k _ hfetch hjc hk hnewer hbody
    exact ⟨_, h1, rfl, Or.inl rfl, h2, h3, h4, h5⟩
  · have hbody := body_parse_error env (cryptoNew j.UID gui.key) k _ gui1 content err hd hp
    obtain ⟨h1, h2, h3, h4, h5⟩ :=
      onJournalSelect_stops env gui gui1 _ j es jc k _ hfetch hjc hk hnewer hbody
    refine ⟨_, h1, rfl, Or.inr ⟨content, hd, ?_⟩, h2, h3, h4, h5⟩
    simp [GUI.record]

/-- Counterexample for C2 as stated: in the task journal of the example account
the second of three entries cannot be decrypted; `onJournalSelect` returns that
error, and the entry table, empty before the call, holds the headers and the
row of the newest entry. -/
theorem C2_all_or_nothing_counterexample :
    Example.env.JournalEntries Example.tasks.UID = .ok Example.taskEntries ∧
    Example.env.EntryGetContent ⟨"t2", "garbled"⟩
      (cryptoNew Example.tasks.UID Example.gui.key) = .error "bad signature" ∧
    (onJournalSelect Example.env Example.gui Example.tasks).1 = .error "bad signature" ∧
    Example.gui.entries.cells 0 1 = none ∧
    Example.gui.entries.cells 1 1 = none ∧
    (onJournalSelect Example.env Example.gui Example.tasks).2.entries.headerIs
      "" "Summary" "Date" ∧
    (onJournalSelect Example.env Example.gui Example.tasks).2.entries.rowIs 1
      "↪" "Buy milk" "2019 years ago" := by
  refine ⟨rfl, rfl, ?_, rfl, rfl, ?_, ?_⟩ <;> decide

/-- Witness for C2 (amended): the drafts calendar of the example account, whose
newest entry has no renderable shape and whose older entry cannot be decrypted:
the error is returned with the header row in the table and no cell below it. -/
theorem C2_error_keeps_newer_rows_witness :
    ∃ gui2,
      onJournalSelect Example.env Example.gui Example.drafts = (.error "bad signature", gui2) ∧
      gui2.entries = Example.draftsNewest.entries ∧
      gui2.entries.cells 0 1 = some (headerCell "Summary") ∧
      (∀ r c, 1 < r → gui2.entries.cells r c = none) :=
  (C2_error_keeps_newer_rows Example.env Example.gui Example.draftsNewest Example.drafts
    Example.draftEntries ⟨"Misc", "NOTES"⟩ 1 "bad signature" rfl rfl (by decide)
    (Prod.ext (by decide) rfl) (Or.inl rfl)).elim
    fun gui2 h => ⟨gui2, h.1, h.2.1, h.2.1.symm ▸ (by decide), h.2.2.2.2.2.2⟩

/-- C3 (amended): if the `k` newest entries are processed and the next one
decodes to a node whose name is none of `VCARD`, `VCALENDAR`, `VTODO`,
`onJournalSelect` panics with that name at that entry, without processing any
older entry (the last collaborator calls are those for the offending entry).
The entry table is not restored: it has been cleared and holds what the `k`
newer entries wrote: no cell at all when `k = 0` (the offending entry is the
newest); otherwise the header row chosen by the newest entry, in each of the
rows 1 to `k` the row of the corresponding newer entry (no cell for an entry
without a renderable shape), and no cell in any row beyond `k`. -/
theorem C3_panic_keeps_newer_rows (env : Env) (gui gui1 : GUI) (j : Journal)
    (es : List Entry) (jc : JournalContent) (k : Nat) (content : EntryContent) (node : Node)
    (hfetch : env.JournalEntries j.UID = .ok es)
    (hjc : env.JournalGetContent j (cryptoNew j.UID gui.key) = .ok jc)
    (hk : k < es.length)
    (hnewer : onJournalSelect.loop env (cryptoNew j.UID gui.key) es 0 k
      (onJournalSelect.start gui j jc) = (.ok, gui1))
    (hd : env.EntryGetContent (es[es.length - 1 - k]) (cryptoNew j.UID gui.key) = .ok content)
    (hp : env.ParseCalendar content.Content = .ok node)
    (h1 : node.Name ≠ "VCARD") (h2 : node.Name ≠ "VCALENDAR") (h3 : node.Name ≠ "VTODO") :
    ∃ gui2,
      onJournalSelect env gui j = (.panic node.Name, gui2) ∧
      gui2.entries = gui1.entries ∧
      gui2.calls = gui1.calls ++
        [.EntryGetContent (es[es.length - 1 - k]).UID, .ParseCalendar content.Content] ∧
      (k = 0 → ∀ r c, gui2.entries.cells r c = none) ∧
      (0 < k → ∃ content node,
        env.EntryGetContent (es[es.length - 1]) (cryptoNew j.UID gui.key) = .ok content ∧
        env.ParseCalendar content.Content = .ok node ∧
        gui2.entries.headerIs (Spec.headers node).1 (Spec.headers node).2.1
          (Spec.headers node).2.2 ∧
        ∀ c, 3 ≤ c → gui2.entries.cells 0 c = none) ∧
      (∀ (i : Nat) (hi : i < k), ∃ content node,
        env.EntryGetContent (es[es.length - 1 - i]) (cryptoNew j.UID gui.key) = .ok content ∧
        env.ParseCalendar content.Content = .ok node ∧
        (∀ x y z, Spec.entryRow env content node = some (x, y, z) →
          gui2.entries.rowIs (i + 1) x y z) ∧
        (Spec.entryRow env content node = none →
          ∀ c, gui2.entries.cells (i + 1) c = none) ∧
        ∀ c, 3 ≤ c → gui2.entries.cells (i + 1) c = none) ∧
      (∀ r c, k < r → gui2.entries.cells r c = none) := by
  have hbody := body_panic env (cryptoNew j.UID gui.key) k _ gui1 content node hd hp h1 h2 h3
  obtain ⟨g1, g2, g3, g4, g5⟩ :=
    onJournalSelect_stops env gui gui1 _ j es jc k _ hfetch hjc hk hnewer hbody
  refine ⟨_, g1, rfl, ?_, g2, g3, g4, g5⟩
  simp [GUI.record]

/-- Counterexample for C3 as stated: the oldest entry of the journal of unknown
type in the example account decodes to a `VJOURNAL` node. On a first population
the call panics and the table, empty before, holds the row of the newer entry;
after the address book had been shown, the call panics and row 2 of the table
is no longer what it was. -/
theorem C3_prior_state_counterexample :
    Example.env.JournalEntries Example.misc.UID = .ok Example.miscEntries ∧
    Example.env.EntryGetContent ⟨"n1", "note"⟩
      (cryptoNew Example.misc.UID Example.gui.key) = .ok ⟨"CHANGE", "note"⟩ ∧
    (Example.env.ParseCalendar "note").toOption.map Node.Name = some "VJOURNAL" ∧
    (onJournalSelect Example.env Example.gui Example.misc).1 = .panic "VJOURNAL" ∧
    Example.gui.entries.cells 1 0 = none ∧
    (onJournalSelect Example.env Example.gui Example.misc).2.entries.cells 1 0
      = some (NewTableCell "✔") ∧
    (onJournalSelect Example.env Example.afterContacts Example.misc).1 = .panic "VJOURNAL" ∧
    Example.afterContacts.entries.cells 2 0 = some (NewTableCell "✔") ∧
    (onJournalSelect Example.env Example.afterContacts Example.misc).2.entries.cells 2 0
      = none := by
  refine ⟨rfl, rfl, rfl, ?_, rfl, ?_, ?_, ?_, ?_⟩ <;> decide

/-- Witness for C3 (amended): the scraps journal of the example account, whose
newest entry has no renderable shape and whose older entry is of an unknown
kind: the call panics with the header row in the table and no cell below it. -/
theorem C3_panic_keeps_newer_rows_witness :
    ∃ gui2,
      onJournalSelect Example.env Example.gui Example.scraps = (.panic "VJOURNAL", gui2) ∧
      gui2.entries = Example.scrapsNewest.entries ∧
      gui2.entries.cells 0 1 = some (headerCell "Summary") ∧
      (∀ r c, 1 < r → gui2.entries.cells r c = none) :=
  (C3_panic_keeps_newer_rows Example.env Example.gui Example.scrapsNewest Example.scraps
    Example.scrapEntries ⟨"Misc", "NOTES"⟩ 1 ⟨"CHANGE", "note"⟩ Example.note rfl rfl (by decide)
    (Prod.ext (by decide) rfl) rfl rfl (by decide) (by decide) (by decide)).elim
    fun gui2 h => ⟨gui2, h.1, h.2.1, h.2.1.symm ▸ (by decide), h.2.2.2.2.2.2⟩

/-- C4: when the journals are fetched and every journal's metadata decodes,
`newJournals` returns the journal table, and row `k` shows, before a blank and
the display name of the `k`-th journal, the calendar glyph if its decoded type
is `JournalCalendar`, the contact glyph if `JournalAddressBook`, the note glyph
if `JournalTasks` and nothing for any other type (the three constants being
distinct); whatever the types are, no error is returned, and an error that
`newJournals` returns is the fetch error or the decoding error of a journal. -/
theorem C4_journal_icon (env : Env) (gui : GUI) (js : List Journal)
    (hdist : env.JournalCalendar ≠ env.JournalAddressBook ∧
      env.JournalCalendar ≠ env.JournalTasks ∧ env.JournalAddressBook ≠ env.JournalTasks)
    (hfetch : env.Journals = .ok js)
    (hdec : ∀ j ∈ js, ∃ c, env.JournalGetContent j (cryptoNew j.UID gui.key) = .ok c) :
    (∃ t uids gui1, newJournals env gui = (.ok (t, uids), gui1) ∧
      ∀ (k : Nat) (hk : k < js.length), ∃ c icon,
        env.JournalGetContent (js[k]) (cryptoNew (js[k]).UID gui.key) = .ok c ∧
        t.cells k 0 = some (NewTableCell (icon ++ " " ++ c.DisplayName)) ∧
        (c.Typ = env.JournalCalendar → icon = "📅") ∧
        (c.Typ = env.JournalAddressBook → icon = "🙎") ∧
        (c.Typ = env.JournalTasks → icon = "🗒") ∧
        (c.Typ ≠ env.JournalCalendar → c.Typ ≠ env.JournalAddressBook →
          c.Typ ≠ env.JournalTasks → icon = "")) ∧
    (∀ (env1 : Env) (g g1 : GUI) (err : Error), newJournals env1 g = (.error err, g1) →
      env1.Journals = .error err ∨
      ∃ js1 j, env1.Journals = .ok js1 ∧ j ∈ js1 ∧
        env1.JournalGetContent j (cryptoNew j.UID g.key) = .error err) := by
  constructor
  · obtain ⟨t1, uids1, gui1, hloop, hrows, -⟩ := newJournals_loop_ok env js 0
      (((NewTable.SetSelectable true false).SetTitle "Journals").SetBorder true)
      (List.replicate js.length none) (gui.record .Journals) hdec
    refine ⟨t1, uids1, gui1, ?_, ?_⟩
    · unfold newJournals
      simp only [hfetch]
      exact hloop
    · intro k hk
      obtain ⟨c, hd, hcell⟩ := hrows k hk
      rw [Nat.zero_add] at hcell
      refine ⟨c, newJournals.icon env c.Typ, hd, hcell, ?_, ?_, ?_, ?_⟩
      · intro h; unfold newJournals.icon; rw [if_pos h]
      · intro h
        unfold newJournals.icon
        rw [if_neg (by rw [h]; exact fun h' => hdist.1 h'.symm), if_pos h]
      · intro h
        unfold newJournals.icon
        rw [if_neg (by rw [h]; exact fun h' => hdist.2.1 h'.symm),
          if_neg (by rw [h]; exact fun h' => hdist.2.2 h'.symm), if_pos h]
      · intro h1 h2 h3
        unfold newJournals.icon
        rw [if_neg h1, if_neg h2, if_neg h3]
  · intro env1 g g1 err h
    cases hj : env1.Journals with
    | error e =>
      unfold newJournals at h
      simp only [hj] at h
      cases h
      exact Or.inl rfl
    | ok js1 =>
      unfold newJournals at h
      simp only [hj] at h
      obtain ⟨j, hj', hd⟩ := newJournals_loop_error env1 js1 _ _ _ _ g1 err h
      exact Or.inr ⟨js1, j, rfl, hj', hd⟩

/-- Witness for C4: the four journals of the example account, one of each known
type and one of an unknown type. -/
theorem C4_journal_icon_witness :
    (∃ t uids gui1, newJournals Example.env Example.gui = (.ok (t, uids), gui1) ∧
      ∀ (k : Nat) (hk : k < Example.journals.length), ∃ c icon,
        Example.env.JournalGetContent (Example.journals[k])
          (cryptoNew (Example.journals[k]).UID Example.gui.key) = .ok c ∧
        t.cells k 0 = some (NewTableCell (icon ++ " " ++ c.DisplayName)) ∧
        (c.Typ = Example.env.JournalCalendar → icon = "📅") ∧
        (c.Typ = Example.env.JournalAddressBook → icon = "🙎") ∧
        (c.Typ = Example.env.JournalTasks → icon = "🗒") ∧
        (c.Typ ≠ Example.env.JournalCalendar → c.Typ ≠ Example.env.JournalAddressBook →
          c.Typ ≠ Example.env.JournalTasks → icon = "")) ∧
    (∀ (env1 : Env) (g g1 : GUI) (err : Error), newJournals env1 g = (.error err, g1) →
      env1.Journals = .error err ∨
      ∃ js1 j, env1.Journals = .ok js1 ∧ j ∈ js1 ∧
        env1.JournalGetContent j (cryptoNew j.UID g.key) = .error err) :=
  C4_journal_icon Example.env Example.gui Example.journals
    ⟨by decide, by decide, by decide⟩ rfl
    (by
      intro j hj
      simp only [Example.journals, List.mem_cons, List.mem_singleton, List.not_mem_nil,
        or_false] at hj
      rcases hj with rfl | rfl | rfl | rfl
      · exact ⟨_, rfl⟩
      · exact ⟨_, rfl⟩
      · exact ⟨_, rfl⟩
      · exact ⟨_, rfl⟩)

/-- C5: when `onJournalSelect` has processed the `i` newest entries and the next
entry decodes to action `a`, no value of `a` causes an error: how the iteration
ends is the same for every entry with the same payload text, whatever the
action, and the iteration completes for a node with one of the expected names
(for a `VCALENDAR` or `VTODO`, provided the time stamp of the rendered child
can be read). If the node has a renderable shape, column 0 of
its row (table row `i + 1` when the call ends) holds the check mark for `ADD`,
the cross for `DELETE`, the reorder arrow for `CHANGE`, and `a` itself for
every other action string. -/
theorem C5_action_icon (env : Env) (gui gui0 : GUI) (j : Journal) (es : List Entry)
    (jc : JournalContent) (i : Nat) (content : EntryContent) (node : Node)
    (hfetch : env.JournalEntries j.UID = .ok es)
    (hjc : env.JournalGetContent j (cryptoNew j.UID gui.key) = .ok jc)
    (hi : i < es.length)
    (hreach : onJournalSelect.loop env (cryptoNew j.UID gui.key) es 0 i
      (onJournalSelect.start gui j jc) = (.ok, gui0))
    (hd : env.EntryGetContent (es[es.length - 1 - i]) (cryptoNew j.UID gui.key) = .ok content)
    (hp : env.ParseCalendar content.Content = .ok node) :
    ((node.Name = "VCARD" ∨ node.Name = "VCALENDAR" ∨ node.Name = "VTODO") →
      (node.Name ≠ "VCARD" → Spec.stampReadable env node) →
      ∃ gui1, onJournalSelect.loop env (cryptoNew j.UID gui.key) es 0 (i + 1)
        (onJournalSelect.start gui j jc) = (.ok, gui1)) ∧
    (∀ (e1 : Entry) (content1 : EntryContent) (g : GUI),
      env.EntryGetContent e1 (cryptoNew j.UID gui.key) = .ok content1 →
      content1.Content = content.Content →
      (onJournalSelect.body env (cryptoNew j.UID gui.key) i e1 g).1
        = (onJournalSelect.body env (cryptoNew j.UID gui.key) i
            (es[es.length - 1 - i]) g).1) ∧
    (Spec.renderable node →
      (content.Action = "ADD" →
        (onJournalSelect env gui j).2.entries.cells (i + 1) 0 = some (NewTableCell "✔")) ∧
      (content.Action = "DELETE" →
        (onJournalSelect env gui j).2.entries.cells (i + 1) 0 = some (NewTableCell "✖")) ∧
      (content.Action = "CHANGE" →
        (onJournalSelect env gui j).2.entries.cells (i + 1) 0 = some (NewTableCell "↪")) ∧
      (content.Action ≠ "ADD" → content.Action ≠ "DELETE" → content.Action ≠ "CHANGE" →
        (onJournalSelect env gui j).2.entries.cells (i + 1) 0
          = some (NewTableCell content.Action))) := by
  refine ⟨fun hn hs => ?_, fun e1 content1 g hd1 hc => ?_, fun hshape => ?_⟩
  · have hv : onJournalSelect.panicValue env node = none :=
      (panicValue_none_iff env node).2 ⟨hn, hs⟩
    obtain ⟨⟨gui1, hone, -⟩, -⟩ :=
      onJournalSelect_row env gui gui0 j es jc i content node hfetch hjc hi hreach hd hp hv
    exact ⟨gui1, hone⟩
  · rw [body_fst env _ i e1 g content1 node hd1 (by rw [hc]; exact hp),
      body_fst env _ i _ g content node hd hp]
  · have h0 := onJournalSelect_row_cells env gui gui0 j es jc i content node hfetch hjc hi
      hreach hd hp 0
    rw [render_icon_cell env i _ node gui0.entries hshape] at h0
    rw [h0]
    refine ⟨fun h => ?_, fun h => ?_, fun h => ?_, fun h1 h2 h3 => ?_⟩
    · rw [h]; rfl
    · rw [h]; rfl
    · rw [h]; rfl
    · simp [onJournalSelect.icon, h1, h2, h3]

/-- Witness for C5: the newest entry of the example address book, a `DELETE`
of a card, processed at loop index 0. -/
theorem C5_action_icon_witness :
    (onJournalSelect Example.env Example.gui Example.contacts).2.entries.cells (0 + 1) 0
      = some (NewTableCell "✖") :=
  ((C5_action_icon Example.env Example.gui Example.contactsStart Example.contacts
    Example.contactEntries ⟨"Friends", "ADDRESS_BOOK"⟩ 0 ⟨"DELETE", "card"⟩ Example.card
    rfl rfl (by decide) rfl rfl rfl).2.2 (Or.inl rfl)).2.1 rfl

/-- C6: when `onJournalSelect` has processed the `i` newest entries and the next
entry parses to a node named `VCARD`, the iteration for that entry completes
without error and, when the call ends, table row `i + 1` holds the action icon,
the value of `FN` and the value of `TEL` in columns 0 to 2 and no further cell;
the name column is the literal `<N/A>` when the node has no `FN` property and
the phone column is the empty string when it has no `TEL` property. -/
theorem C6_vcard_row (env : Env) (gui gui0 : GUI) (j : Journal) (es : List Entry)
    (jc : JournalContent) (i : Nat) (content : EntryContent) (node : Node)
    (hfetch : env.JournalEntries j.UID = .ok es)
    (hjc : env.JournalGetContent j (cryptoNew j.UID gui.key) = .ok jc)
    (hi : i < es.length)
    (hreach : onJournalSelect.loop env (cryptoNew j.UID gui.key) es 0 i
      (onJournalSelect.start gui j jc) = (.ok, gui0))
    (hd : env.EntryGetContent (es[es.length - 1 - i]) (cryptoNew j.UID gui.key) = .ok content)
    (hp : env.ParseCalendar content.Content = .ok node)
    (hv : node.Name = "VCARD") :
    (∃ gui1, onJournalSelect.loop env (cryptoNew j.UID gui.key) es 0 (i + 1)
        (onJournalSelect.start gui j jc) = (.ok, gui1)) ∧
    (onJournalSelect env gui j).2.entries.rowIs (i + 1)
      (onJournalSelect.icon content.Action) (node.PropString "FN" "<N/A>")
      (node.PropString "TEL" "") ∧
    (∀ c, 3 ≤ c → (onJournalSelect env gui j).2.entries.cells (i + 1) c = none) ∧
    (∀ p, node.ChildByName "FN" = some p →
      (onJournalSelect env gui j).2.entries.cells (i + 1) 1 = some (NewTableCell p.Value)) ∧
    ((∀ p ∈ node.Children, p.Name ≠ "FN") →
      (onJournalSelect env gui j).2.entries.cells (i + 1) 1 = some (NewTableCell "<N/A>")) ∧
    (∀ p, node.ChildByName "TEL" = some p →
      (onJournalSelect env gui j).2.entries.cells (i + 1) 2 = some (NewTableCell p.Value)) ∧
    ((∀ p ∈ node.Children, p.Name ≠ "TEL") →
      (onJournalSelect env gui j).2.entries.cells (i + 1) 2 = some (NewTableCell "")) := by
  obtain ⟨⟨gui1, hone, -⟩, hcells⟩ := onJournalSelect_row env gui gui0 j es jc i content node
    hfetch hjc hi hreach hd hp
    ((panicValue_none_iff env node).2 ⟨Or.inl hv, fun h => absurd hv h⟩)
  have hrow : Spec.entryRow env content node = some (onJournalSelect.icon content.Action,
      node.PropString "FN" "<N/A>", node.PropString "TEL" "") := by
    rw [icon_eq_actionIcon]; unfold Spec.entryRow; rw [if_pos hv]
  rw [hrow] at hcells
  have h0 := hcells 0
  have h1 := hcells 1
  have h2 := hcells 2
  simp only [if_true, one_ne_zero, if_false] at h0 h1
  simp only [OfNat.ofNat_ne_zero, OfNat.ofNat_ne_one, if_true, if_false] at h2
  refine ⟨⟨gui1, hone⟩, ⟨h0, h1, h2⟩, ?_, ?_, ?_, ?_, ?_⟩
  · intro c hc
    have c0 : c ≠ 0 := by omega
    have c1 : c ≠ 1 := by omega
    have c2 : c ≠ 2 := by omega
    rw [hcells c]
    simp [c0, c1, c2]
  · intro p hpn; rw [h1]; unfold Node.PropString; rw [hpn]
  · intro hno; rw [h1, propString_none node "FN" _ hno]
  · intro p hpn; rw [h2]; unfold Node.PropString; rw [hpn]
  · intro hno; rw [h2, propString_none node "TEL" _ hno]

/-- Witness for C6: the newest entry of the example address book, processed at
loop index 0. -/
theorem C6_vcard_row_witness :
    (onJournalSelect Example.env Example.gui Example.contacts).2.entries.rowIs (0 + 1)
      (onJournalSelect.icon "DELETE") (Example.card.PropString "FN" "<N/A>")
      (Example.card.PropString "TEL" "") :=
  (C6_vcard_row Example.env Example.gui Example.contactsStart Example.contacts
    Example.contactEntries ⟨"Friends", "ADDRESS_BOOK"⟩ 0 ⟨"DELETE", "card"⟩ Example.card
    rfl rfl (by decide) rfl rfl rfl rfl).2.1

/-- C7 (amended): when `onJournalSelect` has processed the `i` newest entries
and the next entry parses to a node named `VCALENDAR` or `VTODO`, the row is
rendered from the child named `VTODO` when there is one, otherwise from the
child named `VEVENT`. When that child has no `DTSTAMP`, or has one that
`PropDate` parses, the iteration completes without error, the call goes on with
the remaining entries, and when the call ends table row `i + 1` holds the
action icon, `SUMMARY` (the empty string if absent) and the relative-time
rendering of the parsed `DTSTAMP` (of the zero timestamp if absent), and no
further cell. When neither child exists, the iteration completes, the call
goes on with the remaining entries and row `i + 1` has no cell. -/
theorem C7_calendar_row (env : Env) (gui gui0 : GUI) (j : Journal) (es : List Entry)
    (jc : JournalContent) (i : Nat) (content : EntryContent) (node : Node)
    (hfetch : env.JournalEntries j.UID = .ok es)
    (hjc : env.JournalGetContent j (cryptoNew j.UID gui.key) = .ok jc)
    (hi : i < es.length)
    (hreach : onJournalSelect.loop env (cryptoNew j.UID gui.key) es 0 i
      (onJournalSelect.start gui j jc) = (.ok, gui0))
    (hd : env.EntryGetContent (es[es.length - 1 - i]) (cryptoNew j.UID gui.key) = .ok content)
    (hp : env.ParseCalendar content.Content = .ok node)
    (hv : node.Name = "VCALENDAR" ∨ node.Name = "VTODO") :
    (∀ child w,
      (node.ChildByName "VTODO" = some child ∨
        (node.ChildByName "VTODO" = none ∧ node.ChildByName "VEVENT" = some child)) →
      (((∀ p ∈ child.Children, p.Name ≠ "DTSTAMP") ∧ w = Time.zero) ∨
        ∃ p, child.ChildByName "DTSTAMP" = some p ∧ env.parseTime p = .ok w) →
      (∃ gui1,
        onJournalSelect.loop env (cryptoNew j.UID gui.key) es 0 (i + 1)
          (onJournalSelect.start gui j jc) = (.ok, gui1) ∧
        onJournalSelect env gui j
          = onJournalSelect.loop env (cryptoNew j.UID gui.key) es (i + 1)
              (es.length - (i + 1)) gui1) ∧
      (onJournalSelect env gui j).2.entries.rowIs (i + 1)
        (onJournalSelect.icon content.Action) (child.PropString "SUMMARY" "")
        (env.DifferenceFromNowForHumans w) ∧
      (∀ c, 3 ≤ c → (onJournalSelect env gui j).2.entries.cells (i + 1) c = none) ∧
      ((∀ p ∈ child.Children, p.Name ≠ "SUMMARY") →
        (onJournalSelect env gui j).2.entries.cells (i + 1) 1 = some (NewTableCell "")) ∧
      (∀ p, child.ChildByName "SUMMARY" = some p →
        (onJournalSelect env gui j).2.entries.cells (i + 1) 1
          = some (NewTableCell p.Value))) ∧
    (node.ChildByName "VTODO" = none → node.ChildByName "VEVENT" = none →
      (∃ gui1,
        onJournalSelect.loop env (cryptoNew j.UID gui.key) es 0 (i + 1)
          (onJournalSelect.start gui j jc) = (.ok, gui1) ∧
        onJournalSelect env gui j
          = onJournalSelect.loop env (cryptoNew j.UID gui.key) es (i + 1)
              (es.length - (i + 1)) gui1) ∧
      ∀ c, (onJournalSelect env gui j).2.entries.cells (i + 1) c = none) := by
  have hne : node.Name ≠ "VCARD" := by
    rcases hv with h | h <;> rw [h] <;> decide
  constructor
  · intro child w hchild hstamp
    have hc : Spec.calendarChild node = some child := by
      unfold Spec.calendarChild
      rcases hchild with h | ⟨h1, h2⟩
      · rw [h]
      · rw [h1]; exact h2
    have hw : child.PropDate env "DTSTAMP" Time.zero = .ok w := by
      rcases hstamp with ⟨hno, rfl⟩ | ⟨p, hp1, hp2⟩
      · exact propDate_none env child "DTSTAMP" _ hno
      · rw [propDate_some env child p "DTSTAMP" _ hp1]; exact hp2
    have hpv : onJournalSelect.panicValue env node = none := by
      refine (panicValue_none_iff env node).2 ⟨Or.inr hv, fun _ c hc1 => ?_⟩
      rw [hc] at hc1
      cases hc1
      exact ⟨w, hw⟩
    obtain ⟨hgo, hcells⟩ := onJournalSelect_row env gui gui0 j es jc i content node
      hfetch hjc hi hreach hd hp hpv
    have hrow : Spec.entryRow env content node = some (onJournalSelect.icon content.Action,
        child.PropString "SUMMARY" "", env.DifferenceFromNowForHumans w) := by
      rw [icon_eq_actionIcon]; unfold Spec.entryRow; rw [if_neg hne, if_pos hv, hc]
      simp only [hw]
    rw [hrow] at hcells
    have h0 := hcells 0
    have h1 := hcells 1
    have h2 := hcells 2
    simp only [if_true, one_ne_zero, if_false] at h0 h1
    simp only [OfNat.ofNat_ne_zero, OfNat.ofNat_ne_one, if_true, if_false] at h2
    refine ⟨hgo, ⟨h0, h1, h2⟩, ?_, ?_, ?_⟩
    · intro c hc3
      have c0 : c ≠ 0 := by omega
      have c1 : c ≠ 1 := by omega
      have c2 : c ≠ 2 := by omega
      rw [hcells c]
      simp [c0, c1, c2]
    · intro hno; rw [h1, propString_none child "SUMMARY" _ hno]
    · intro p hpn; rw [h1]; unfold Node.PropString; rw [hpn]
  · intro h1 h2
    have hc : Spec.calendarChild node = none := by
      unfold Spec.calendarChild; rw [h1]; exact h2
    have hpv : onJournalSelect.panicValue env node = none := by
      refine (panicValue_none_iff env node).2 ⟨Or.inr hv, fun _ c hc1 => ?_⟩
      rw [hc] at hc1
      cases hc1
    obtain ⟨hgo, hcells⟩ := onJournalSelect_row env gui gui0 j es jc i content node
      hfetch hjc hi hreach hd hp hpv
    have hrow : Spec.entryRow env content node = none := by
      unfold Spec.entryRow; rw [if_neg hne, if_pos hv, hc]
    rw [hrow] at hcells
    exact ⟨hgo, hcells⟩

/-- Counterexample for C7 as stated: the newest entry of the imported calendar
of the example account is a `VCALENDAR` with a `VEVENT` child whose `DTSTAMP`
is `20190101T120000`, which `PropDate` does not parse. The call panics at that
entry with the icon and the summary written and no date cell: the row is not
(icon, `SUMMARY`, relative time) and the call does not complete. -/
theorem C7_unparsed_stamp_counterexample :
    Example.env.JournalEntries Example.imported.UID = .ok Example.importedEntries ∧
    Example.env.EntryGetContent ⟨"i2", "stale"⟩
      (cryptoNew Example.imported.UID Example.gui.key) = .ok ⟨"CHANGE", "stale"⟩ ∧
    (Example.env.ParseCalendar "stale").toOption.map Node.Name = some "VCALENDAR" ∧
    ((Example.env.ParseCalendar "stale").toOption.bind
      (fun n => n.ChildByName "VEVENT")).isSome = true ∧
    (onJournalSelect Example.env Example.gui Example.imported).1
      = .panic "parsing time: cannot parse as 20060102T150405Z" ∧
    (onJournalSelect Example.env Example.gui Example.imported).2.entries.cells 1 0
      = some (NewTableCell "↪") ∧
    (onJournalSelect Example.env Example.gui Example.imported).2.entries.cells 1 1
      = some (NewTableCell "Lunch") ∧
    (onJournalSelect Example.env Example.gui Example.imported).2.entries.cells 1 2 = none := by
  refine ⟨rfl, rfl, rfl, rfl, ?_, ?_, ?_, ?_⟩ <;> decide

/-- Witness for C7 (amended): the newest entry of the example calendar, a task
without a time stamp, processed at loop index 0. -/
theorem C7_calendar_row_witness :
    (onJournalSelect Example.env Example.gui Example.calendar).2.entries.rowIs (0 + 1)
      (onJournalSelect.icon "CHANGE") "Buy milk" "2019 years ago" :=
  ((C7_calendar_row Example.env Example.gui Example.calendarStart Example.calendar
      Example.calendarEntries ⟨"Work", "CALENDAR"⟩ 0 ⟨"CHANGE", "todo"⟩ Example.todo
      rfl rfl (by decide) rfl rfl rfl (Or.inl rfl)).1
      (.mk "VTODO" "" [] [.mk "SUMMARY" "Buy milk" [] []]) Time.zero (Or.inl rfl)
      (Or.inl ⟨by decide, rfl⟩)).2.1

/-- C8: on a non-empty entry list for which `onJournalSelect` returns `nil`,
row 0 of the entry table holds the headers chosen by the newest entry (the one
processed at loop index 0): `("", "Name", "Phone")` when its node is a `VCARD`,
`("", "Summary", "Date")` when it is a `VCALENDAR` or `VTODO`, as gray cells
that cannot be selected, and nothing else; the body of every later iteration
leaves row 0 as it is, whatever the entry it processes. -/
theorem C8_headers (env : Env) (gui gui1 : GUI) (j : Journal) (es : List Entry)
    (hfetch : env.JournalEntries j.UID = .ok es)
    (hne : es ≠ [])
    (hok : onJournalSelect env gui j = (.ok, gui1)) :
    (∃ content node,
      env.EntryGetContent (es.getLast hne) (cryptoNew j.UID gui.key) = .ok content ∧
      env.ParseCalendar content.Content = .ok node ∧
      (node.Name = "VCARD" ∨ node.Name = "VCALENDAR" ∨ node.Name = "VTODO") ∧
      (node.Name = "VCARD" → gui1.entries.headerIs "" "Name" "Phone") ∧
      (node.Name = "VCALENDAR" ∨ node.Name = "VTODO" →
        gui1.entries.headerIs "" "Summary" "Date")) ∧
    (∀ c, 3 ≤ c → gui1.entries.cells 0 c = none) ∧
    (∀ (i : Nat) (e : Entry) (g : GUI), 0 < i → ∀ c,
      (onJournalSelect.body env (cryptoNew j.UID gui.key) i e g).2.entries.cells 0 c
        = g.entries.cells 0 c) := by
  obtain ⟨es', jc, hf, hj, hpass⟩ := onJournalSelect_ok env gui gui1 j hok
  rw [hfetch] at hf
  cases hf
  have hrne : es.reverse ≠ [] := by simpa using hne
  have hrev : es.reverse = es.getLast hne :: es.reverse.tail := by
    rw [List.getLast_eq_head_reverse hne]
    exact (List.head_cons_tail _ hrne).symm
  rw [hrev] at hpass
  obtain ⟨content, node, hd, hp, hpv, hcells⟩ := pass_header env _ _ _ _ gui1 hpass
  refine ⟨⟨content, node, hd, hp, ((panicValue_none_iff env node).1 hpv).1, ?_, ?_⟩, ?_, ?_⟩
  · intro hv
    have hh : Spec.headers node = ("", "Name", "Phone") := by
      unfold Spec.headers; rw [if_pos hv]
    have h0 := hcells 0
    have h1 := hcells 1
    have h2 := hcells 2
    rw [hh] at h0 h1 h2
    simp only [if_true, one_ne_zero, if_false] at h0 h1
    simp only [OfNat.ofNat_ne_zero, OfNat.ofNat_ne_one, if_true, if_false] at h2
    exact ⟨h0, h1, h2⟩
  · intro hv
    have hne : node.Name ≠ "VCARD" := by
      rcases hv with h | h <;> rw [h] <;> decide
    have hh : Spec.headers node = ("", "Summary", "Date") := by
      unfold Spec.headers; rw [if_neg hne]
    have h0 := hcells 0
    have h1 := hcells 1
    have h2 := hcells 2
    rw [hh] at h0 h1 h2
    simp only [if_true, one_ne_zero, if_false] at h0 h1
    simp only [OfNat.ofNat_ne_zero, OfNat.ofNat_ne_one, if_true, if_false] at h2
    exact ⟨h0, h1, h2⟩
  · intro c hc
    rw [hcells c, start_cells]
    have c0 : c ≠ 0 := by omega
    have c1 : c ≠ 1 := by omega
    have c2 : c ≠ 2 := by omega
    simp [c0, c1, c2]
  · intro i e g hi c
    exact body_keeps_header env _ i e g hi c

/-- Witness for C8: the address book of the example account. -/
theorem C8_headers_witness :
    (∃ content node,
      Example.env.EntryGetContent (Example.contactEntries.getLast (List.cons_ne_nil _ _))
        (cryptoNew Example.contacts.UID Example.gui.key) = .ok content ∧
      Example.env.ParseCalendar content.Content = .ok node ∧
      (node.Name = "VCARD" ∨ node.Name = "VCALENDAR" ∨ node.Name = "VTODO") ∧
      (node.Name = "VCARD" → Example.afterContacts.entries.headerIs "" "Name" "Phone") ∧
      (node.Name = "VCALENDAR" ∨ node.Name = "VTODO" →
        Example.afterContacts.entries.headerIs "" "Summary" "Date")) ∧
    (∀ c, 3 ≤ c → Example.afterContacts.entries.cells 0 c = none) ∧
    (∀ (i : Nat) (e : Entry) (g : GUI), 0 < i → ∀ c,
      (onJournalSelect.body Example.env (cryptoNew Example.contacts.UID Example.gui.key)
        i e g).2.entries.cells 0 c = g.entries.cells 0 c) :=
  C8_headers Example.env Example.gui Example.afterContacts Example.contacts
    Example.contactEntries rfl (List.cons_ne_nil _ _) (Prod.ext (by decide) rfl)

/-- C9: when `onJournalSelect` returns `nil` for a journal, calling it again
with the same collaborators returns `nil` and leaves the entry table with the
same cells; more generally the cells after a call do not depend on the view
the call started from. -/
theorem C9_idempotent (env : Env) (gui gui1 : GUI) (j : Journal)
    (hok : onJournalSelect env gui j = (.ok, gui1)) :
    (∃ gui2, onJournalSelect env gui1 j = (.ok, gui2) ∧
      gui2.entries.cells = gui1.entries.cells) ∧
    (∀ g : GUI, g.key = gui.key →
      ∃ g1, onJournalSelect env g j = (.ok, g1) ∧ g1.entries.cells = gui1.entries.cells) := by
  obtain ⟨es, jc, hf, hj, hpass⟩ := onJournalSelect_ok env gui gui1 j hok
  have hany : ∀ g : GUI, g.key = gui.key →
      ∃ g1, onJournalSelect env g j = (.ok, g1) ∧ g1.entries.cells = gui1.entries.cells := by
    intro g hg
    have hj' : env.JournalGetContent j (cryptoNew j.UID g.key) = .ok jc := by rw [hg]; exact hj
    have heq := onJournalSelect_eq_pass env g j es jc hf hj'
    rw [hg] at heq
    have hc := pass_congr env (cryptoNew j.UID gui.key) es.reverse 0
      (onJournalSelect.start g j jc) (onJournalSelect.start gui j jc) rfl
    rw [hpass] at hc
    refine ⟨(onJournalSelect env g j).2, ?_, ?_⟩
    · rw [heq]
      exact Prod.ext hc.1 rfl
    · rw [heq]; exact hc.2
  refine ⟨hany gui1 ?_, hany⟩
  rw [pass_key env _ _ _ _ gui1 .ok hpass, start_key]

/-- Witness for C9: the address book of the example account, selected a second
time. -/
theorem C9_idempotent_witness :
    (∃ gui2, onJournalSelect Example.env Example.afterContacts Example.contacts = (.ok, gui2) ∧
      gui2.entries.cells = Example.afterContacts.entries.cells) ∧
    (∀ g : GUI, g.key = Example.gui.key →
      ∃ g1, onJournalSelect Example.env g Example.contacts = (.ok, g1) ∧
        g1.entries.cells = Example.afterContacts.entries.cells) :=
  C9_idempotent Example.env Example.gui Example.afterContacts Example.contacts
    (Prod.ext (by decide) rfl)

/-- C10: the input capture of the entry table gives the focus to the journal
table on left-arrow and on tab and leaves the focus alone on every other key
(so from the entry table the focus moves exactly on those two keys); in both
cases it makes no collaborator call, changes neither table nor the key, and
returns the event it received. -/
theorem C10_input_capture (gui : GUI) (e : EventKey) :
    ((e.Key = KeyLeft ∨ e.Key = KeyTAB) →
      (newEntries.InputCapture gui e).1.focus = .journals) ∧
    (¬ (e.Key = KeyLeft ∨ e.Key = KeyTAB) →
      (newEntries.InputCapture gui e).1.focus = gui.focus) ∧
    (gui.focus = .entries →
      ((newEntries.InputCapture gui e).1.focus = .journals ↔
        (e.Key = KeyLeft ∨ e.Key = KeyTAB))) ∧
    (newEntries.InputCapture gui e).1.calls = gui.calls ∧
    (newEntries.InputCapture gui e).1.entries = gui.entries ∧
    (newEntries.InputCapture gui e).1.journals = gui.journals ∧
    (newEntries.InputCapture gui e).1.key = gui.key ∧
    (newEntries.InputCapture gui e).2 = e := by
  by_cases h : e.Key = KeyLeft ∨ e.Key = KeyTAB
  · have hr : newEntries.InputCapture gui e = (gui.SetFocus .journals, e) := by
      unfold newEntries.InputCapture; rw [if_pos h]
    rw [hr]
    exact ⟨fun _ => rfl, fun h' => absurd h h', fun _ => ⟨fun _ => h, fun _ => rfl⟩,
      rfl, rfl, rfl, rfl, rfl⟩
  · have hr : newEntries.InputCapture gui e = (gui, e) := by
      unfold newEntries.InputCapture; rw [if_neg h]
    rw [hr]
    refine ⟨fun h' => absurd h' h, fun _ => rfl, fun hf => ?_, rfl, rfl, rfl, rfl, rfl⟩
    constructor
    · intro hj
      have : gui.focus = Focus.journals := hj
      rw [hf] at this
      cases this
    · intro h'
      exact absurd h' h

end Etesync
